import Mathlib

/-!
MPU-9250 DMP Arduino library: a verification development.

A shallow embedding of `src/SparkFunMPU9250-DMP.cpp` and theorems about it.

Conventions of the embedding:

* `unsigned char`, `unsigned short` and `unsigned long` values are natural
  numbers; where the C code narrows a value to 16 or 32 bits the embedding
  writes the reduction `% 65536` or `% 2 ^ 32` explicitly.
* `int`, `short`, `long` and `inv_error_t` values are integers.
* The InvenSense driver (`dmp_*`, `mpu_*`) is external.  Every call the library
  makes to it is an element of `DriverCall`; the code the driver hands back is
  chosen by a `Driver`, an arbitrary function of the calls made so far.  The
  register reads of the raw sample reader are elements of `SensorCall`, answered
  by a `SensorDriver`.
* `float` is IEEE binary32 and `double` IEEE binary64, as on the supported
  platform, every operation rounded to nearest, ties to even (`f32Round`,
  `f64Round`); their values are rational numbers.  `qToFloat`, `calcQuat` and
  `computeCompassHeading` are embedded in this arithmetic, the libm function
  `atan2` being a parameter.
* `computeEulerAngles` is embedded over the reals: each of its `float`
  operations, the fixed-point conversion included (`qToFloatExact`), is carried
  out exactly.
-/

/-! ## Constants of headers that are not among the sources -/

/-- Constants that the library takes from `SparkFunMPU9250-DMP.h` and
`inv_mpu_dmp_motion_driver.h`.  Neither header is among the sources, so their
values are parameters of the embedding. -/
structure DriverConsts where
  INV_SUCCESS : Int
  INV_ERROR : Int
  DMP_FEATURE_TAP : Nat
  DMP_FEATURE_LP_QUAT : Nat
  DMP_FEATURE_6X_LP_QUAT : Nat
  DMP_FEATURE_GYRO_CAL : Nat
  MAX_DMP_SAMPLE_RATE : Nat
  INV_WXYZ_QUAT : Nat
  X_AXIS : Nat
  Y_AXIS : Nat
  Z_AXIS : Nat
  TAP_X : Nat
  TAP_Y : Nat
  TAP_Z : Nat
  UPDATE_ACCEL : Nat
  UPDATE_GYRO : Nat
  UPDATE_COMPASS : Nat
  UPDATE_TEMP : Nat
deriving Repr

/-- One concrete choice of the header constants, used to evaluate the embedding
on concrete inputs. -/
def sampleConsts : DriverConsts where
  INV_SUCCESS := 0
  INV_ERROR := 32
  DMP_FEATURE_TAP := 1
  DMP_FEATURE_LP_QUAT := 4
  DMP_FEATURE_6X_LP_QUAT := 16
  DMP_FEATURE_GYRO_CAL := 32
  MAX_DMP_SAMPLE_RATE := 200
  INV_WXYZ_QUAT := 256
  X_AXIS := 0
  Y_AXIS := 1
  Z_AXIS := 2
  TAP_X := 1
  TAP_Y := 2
  TAP_Z := 4
  UPDATE_ACCEL := 2
  UPDATE_GYRO := 4
  UPDATE_COMPASS := 8
  UPDATE_TEMP := 16

/-! ## Constants of `util/inv_mpu.h` -/

def INV_X_GYRO : Nat := 0x40

def INV_Y_GYRO : Nat := 0x20

def INV_Z_GYRO : Nat := 0x10

def INV_XYZ_GYRO : Nat := INV_X_GYRO ||| INV_Y_GYRO ||| INV_Z_GYRO

def INV_XYZ_ACCEL : Nat := 0x08

def INV_XYZ_COMPASS : Nat := 0x01

/-! ## The tap event latch -/

/-- The file-scope variables `tap_count`, `tap_direction`, `_tap_available`. -/
structure TapState where
  tap_count : Nat
  tap_direction : Nat
  _tap_available : Bool
deriving DecidableEq, Repr

/-- The callback `tap_cb(direction, count)`. -/
def tap_cb (direction count : Nat) (s : TapState) : TapState :=
  let s := { s with _tap_available := true }
  let s := { s with tap_count := count }
  { s with tap_direction := direction }

namespace MPU9250_DMP

/-- The method `getTapDir`: clears the flag, returns the stored direction. -/
def getTapDir (s : TapState) : Nat × TapState :=
  let s := { s with _tap_available := false }
  (s.tap_direction, s)

/-- The method `getTapCount`: clears the flag, returns the stored count. -/
def getTapCount (s : TapState) : Nat × TapState :=
  let s := { s with _tap_available := false }
  (s.tap_count, s)

/-- The method `tapAvailable`: returns the flag. -/
def tapAvailable (s : TapState) : Bool × TapState :=
  (s._tap_available, s)

/-- The state after `n` successive calls of `tapAvailable`. -/
def pollTap (n : Nat) (s : TapState) : TapState :=
  (fun t => (tapAvailable t).2)^[n] s

end MPU9250_DMP

/-! ## The external driver -/

/-- The calls that the library makes to the InvenSense driver while starting
the DMP and configuring tap detection, with their arguments. -/
inductive DriverCall where
  | dmp_load_motion_driver_firmware (addr : Nat)
  | dmp_enable_lp_quat (addr enable : Nat)
  | dmp_enable_6x_lp_quat (addr enable : Nat)
  | dmp_enable_gyro_cal (addr enable : Nat)
  | dmp_enable_feature (addr mask : Nat)
  | dmp_set_fifo_rate (addr rate : Nat)
  | mpu_set_dmp_state (addr enable : Nat)
  | dmp_set_tap_thresh (addr axis thresh : Nat)
  | dmp_set_tap_axes (addr axis : Nat)
  | dmp_set_tap_count (addr min_taps : Nat)
  | dmp_set_tap_time (addr time : Nat)
  | dmp_set_tap_time_multi (addr time : Nat)
  | dmp_register_tap_cb
deriving DecidableEq, Repr

/-- The driver calls made so far, oldest first, each with the code it returned. -/
abbrev Trace := List (DriverCall × Int)

/-- The external driver: the code it returns for a call may depend on every
call made before it. -/
abbrev Driver := Trace → DriverCall → Int

/-- Perform one driver call: the returned code and the extended trace. -/
def issue (drv : Driver) (tr : Trace) (c : DriverCall) : Int × Trace :=
  (drv tr c, tr ++ [(c, drv tr c)])

/-- The Arduino macro `constrain(amt, low, high)`. -/
def constrain (amt low high : Nat) : Nat :=
  if amt < low then low else if amt > high then high else amt

/-- The masks handed to `dmp_enable_feature` in a trace, oldest first. -/
def featureMasks : Trace → List Nat
  | [] => []
  | (DriverCall.dmp_enable_feature _ m, _) :: t => m :: featureMasks t
  | _ :: t => featureMasks t

/-- A driver all of whose calls succeed with `0`. -/
def okDriver : Driver := fun _ _ => 0

/-- A driver whose firmware upload fails with `-1`. -/
def loadFailDriver : Driver := fun _ c =>
  match c with
  | DriverCall.dmp_load_motion_driver_firmware _ => -1
  | _ => 0

namespace MPU9250_DMP

/-- The method `dmpLoad`. -/
def dmpLoad (drv : Driver) (i2cAddr : Nat) (tr : Trace) : Int × Trace :=
  issue drv tr (DriverCall.dmp_load_motion_driver_firmware i2cAddr)

/-- The method `dmpEnableFeatures`; `enMask` is an `unsigned short`. -/
def dmpEnableFeatures (K : DriverConsts) (drv : Driver) (i2cAddr : Nat) (mask : Nat)
    (tr : Trace) : Int × Trace :=
  let enMask : Nat := 0
  let enMask := (enMask ||| mask) % 65536
  let enMask := (enMask ||| K.DMP_FEATURE_TAP) % 65536
  issue drv tr (DriverCall.dmp_enable_feature i2cAddr enMask)

/-- The method `dmpSetFifoRate`. -/
def dmpSetFifoRate (K : DriverConsts) (drv : Driver) (i2cAddr : Nat) (rate : Nat)
    (tr : Trace) : Int × Trace :=
  let rate := if rate > K.MAX_DMP_SAMPLE_RATE then K.MAX_DMP_SAMPLE_RATE else rate
  issue drv tr (DriverCall.dmp_set_fifo_rate i2cAddr rate)

/-- The method `dmpBegin(features, fifoRate)`, run after the driver calls of
`tr`.  `feat` is an `unsigned short`, so `feat &= ~(DMP_FEATURE_6X_LP_QUAT)`
keeps the low 16 bits of `feat` outside that constant.  The codes returned by
the three `dmp_enable_*` calls are discarded, as in the source. -/
def dmpBegin (K : DriverConsts) (drv : Driver) (i2cAddr : Nat)
    (features fifoRate : Nat) (tr : Trace) : Int × Trace :=
  let feat := features
  let rate := fifoRate
  let load := dmpLoad drv i2cAddr tr
  if load.1 ≠ K.INV_SUCCESS then (K.INV_ERROR, load.2) else
  let tr := load.2
  let quat : Nat × Trace :=
    if feat &&& K.DMP_FEATURE_LP_QUAT ≠ 0 then
      ((feat &&& (65535 ^^^ K.DMP_FEATURE_6X_LP_QUAT)) % 65536,
        (issue drv tr (DriverCall.dmp_enable_lp_quat i2cAddr 1)).2)
    else if feat &&& K.DMP_FEATURE_6X_LP_QUAT ≠ 0 then
      (feat, (issue drv tr (DriverCall.dmp_enable_6x_lp_quat i2cAddr 1)).2)
    else (feat, tr)
  let feat := quat.1
  let tr := quat.2
  let tr :=
    if feat &&& K.DMP_FEATURE_GYRO_CAL ≠ 0 then
      (issue drv tr (DriverCall.dmp_enable_gyro_cal i2cAddr 1)).2
    else tr
  let en := dmpEnableFeatures K drv i2cAddr feat tr
  if en.1 ≠ K.INV_SUCCESS then (K.INV_ERROR, en.2) else
  let tr := en.2
  let rate := constrain rate 1 200
  let fr := dmpSetFifoRate K drv i2cAddr rate tr
  if fr.1 ≠ K.INV_SUCCESS then (K.INV_ERROR, fr.2) else
  let tr := fr.2
  issue drv tr (DriverCall.mpu_set_dmp_state i2cAddr 1)

end MPU9250_DMP

/-! ## The sample state and the FIFO pipeline -/

/-- The data members of `MPU9250_DMP` that hold the last sample: raw
accelerometer, gyroscope and magnetometer readings, the Q30 quaternion, the
temperature, the time stamp, and the derived angles. -/
structure FusionSample where
  ax : Int
  ay : Int
  az : Int
  gx : Int
  gy : Int
  gz : Int
  mx : Int
  my : Int
  mz : Int
  qw : Int
  qx : Int
  qy : Int
  qz : Int
  temperature : Int
  time : Nat
  pitch : ℝ
  roll : ℝ
  yaw : ℝ
  heading : ℝ

/-- What one call of `mpu_read_fifo` leaves behind: the code it returns and the
contents of the output buffers `gyro`, `accel`, `timestamp`, `sensors`, `more`
after the call.  The arrays are indexed by axis number. -/
structure FifoRead where
  err : Int
  gyro : Nat → Int
  accel : Nat → Int
  timestamp : Nat
  sensors : Nat
  more : Nat

/-- What one call of `dmp_read_fifo` leaves behind.  `sensors` is a `short`; it
is given by its 16-bit pattern. -/
structure DmpFifoRead where
  err : Int
  gyro : Nat → Int
  accel : Nat → Int
  quat : Nat → Int
  timestamp : Nat
  sensors : Nat
  more : Nat

/-- A sample state with every field zero. -/
def zeroSample : FusionSample :=
  ⟨0, 0, 0, 0, 0, 0, 0, 0, 0, 0, 0, 0, 0, 0, 0, 0, 0, 0, 0⟩

/-- A sample state with distinct non-zero integer fields. -/
def oldSample : FusionSample :=
  ⟨1, 2, 3, 4, 5, 6, 7, 8, 9, 10, 11, 12, 13, 14, 15, 0, 0, 0, 0⟩

/-- A successful `mpu_read_fifo` outcome carrying accelerometer data only. -/
def accelOnlyRead : FifoRead :=
  ⟨0, fun i => 100 + i, fun i => 200 + i, 999, INV_XYZ_ACCEL, 0⟩

/-- A successful `dmp_read_fifo` outcome carrying accelerometer data only. -/
def accelOnlyDmpRead : DmpFifoRead :=
  ⟨0, fun i => 100 + i, fun i => 200 + i, fun i => 300 + i, 999, INV_XYZ_ACCEL, 0⟩

/-- A failed `mpu_read_fifo` outcome with garbage in the buffers. -/
def failedRead : FifoRead :=
  ⟨-1, fun i => 100 + i, fun i => 200 + i, 999, 120, 3⟩

/-- A failed `dmp_read_fifo` outcome with garbage in the buffers. -/
def failedDmpRead : DmpFifoRead :=
  ⟨-1, fun i => 100 + i, fun i => 200 + i, fun i => 300 + i, 999, 376, 3⟩

namespace MPU9250_DMP

/-- The method `updateFifo`, given the outcome `r` of its `mpu_read_fifo` call. -/
def updateFifo (K : DriverConsts) (s : FusionSample) (r : FifoRead) : Int × FusionSample :=
  if r.err ≠ K.INV_SUCCESS then (r.err, s) else
  let s := if r.sensors &&& INV_XYZ_ACCEL ≠ 0 then
    { s with ax := r.accel K.X_AXIS, ay := r.accel K.Y_AXIS, az := r.accel K.Z_AXIS } else s
  let s := if r.sensors &&& INV_X_GYRO ≠ 0 then { s with gx := r.gyro K.X_AXIS } else s
  let s := if r.sensors &&& INV_Y_GYRO ≠ 0 then { s with gy := r.gyro K.Y_AXIS } else s
  let s := if r.sensors &&& INV_Z_GYRO ≠ 0 then { s with gz := r.gyro K.Z_AXIS } else s
  let s := { s with time := r.timestamp }
  (K.INV_SUCCESS, s)

/-- The method `dmpUpdateFifo`, given the outcome `r` of its `dmp_read_fifo`
call.  The timing print on the error path touches no data member. -/
def dmpUpdateFifo (K : DriverConsts) (s : FusionSample) (r : DmpFifoRead) :
    Int × FusionSample :=
  if r.err ≠ K.INV_SUCCESS then (r.err, s) else
  let s := if r.sensors &&& INV_XYZ_ACCEL ≠ 0 then
    { s with ax := r.accel K.X_AXIS, ay := r.accel K.Y_AXIS, az := r.accel K.Z_AXIS } else s
  let s := if r.sensors &&& INV_X_GYRO ≠ 0 then { s with gx := r.gyro K.X_AXIS } else s
  let s := if r.sensors &&& INV_Y_GYRO ≠ 0 then { s with gy := r.gyro K.Y_AXIS } else s
  let s := if r.sensors &&& INV_Z_GYRO ≠ 0 then { s with gz := r.gyro K.Z_AXIS } else s
  let s := if r.sensors &&& K.INV_WXYZ_QUAT ≠ 0 then
    { s with qw := r.quat 0, qx := r.quat 1, qy := r.quat 2, qz := r.quat 3 } else s
  let s := { s with time := r.timestamp }
  (K.INV_SUCCESS, s)

end MPU9250_DMP

/-! ## Binary floating point -/

/-- Round a rational to the nearest integer, ties to the even one. -/
def roundEven (y : ℚ) : Int :=
  if y - ⌊y⌋ < 1 / 2 then ⌊y⌋
  else if 1 / 2 < y - ⌊y⌋ then ⌊y⌋ + 1
  else if ⌊y⌋ % 2 = 0 then ⌊y⌋ else ⌊y⌋ + 1

/-- Rounding of a rational to the nearest number of a binary floating-point
format with `prec` significand bits and least normal exponent `emin`, ties to
even, subnormal numbers included.  Overflow to infinity is left out: no value
met in the code comes near the largest finite number. -/
def fpRound (prec : Nat) (emin : Int) (x : ℚ) : ℚ :=
  if x = 0 then 0 else
  let e : Int := max (Int.log 2 |x|) emin
  let ulp : ℚ := 2 ^ (e - ((prec : Int) - 1))
  (roundEven (x / ulp) : ℚ) * ulp

/-- Rounding to `float` (IEEE binary32). -/
def f32Round (x : ℚ) : ℚ := fpRound 24 (-126) x

/-- Rounding to `double` (IEEE binary64). -/
def f64Round (x : ℚ) : ℚ := fpRound 53 (-1022) x

/-- The Arduino macro `PI`, `3.1415926535897932384626433832795`, as the
`double` the compiler makes of it: the binary64 number nearest to π. -/
def PI_double : ℚ := 884279719003555 / 2 ^ 48

/-- A stand-in for the libm function `atan2` on `double` arguments that is
right on the positive x axis, where C fixes `atan2(0, x) = 0`; its other values
are never looked at. -/
def atan2OnAxis (_y _x : ℚ) : ℚ := 0

/-! ## The fusion-result interpreter -/

/-- The C function `atan2(y, x)` over the reals: the angle of the point
`(x, y)`, in `(-π, π]`, with `atan2 0 0 = 0` and `atan2 0 x = π` for `x < 0`. -/
noncomputable def atan2 (y x : ℝ) : ℝ := Complex.arg ⟨x, y⟩

/-- The Arduino constant `PI`, taken as the real number π. -/
noncomputable def PI : ℝ := Real.pi

/-- The all-zero sample state with the magnetometer reading `(mx, my)`. -/
def magSample (mx my : Int) : FusionSample :=
  { zeroSample with mx := mx, my := my }

/-- The all-zero sample state with the Q30 quaternion `(qw, qx, qy, qz)`. -/
def quatSample (qw qx qy qz : Int) : FusionSample :=
  { zeroSample with qw := qw, qx := qx, qy := qy, qz := qz }

namespace MPU9250_DMP

/-- The formula of `qToFloat(number, q)` in exact arithmetic, without the
rounding of its `float` operations.  `number` is a `long` and `mask` an
`unsigned long`, both 32 bits wide on the supported platform; `number & mask`
acts on the two's-complement pattern of `number`, and `number >> q` is the
arithmetic shift.  The C expression `2 << (q - 1)` is defined for
`1 ≤ q ≤ 30` only. -/
def qToFloatExact (number : Int) (q : Nat) : ℚ :=
  let mask : Nat :=
    (List.range q).foldl (fun mask i => (mask ||| (1 <<< i) % 2 ^ 32) % 2 ^ 32) 0
  ((number >>> q : Int) : ℚ) +
    ((((number % 2 ^ 32).toNat &&& mask : Nat) : ℚ) / (((2 <<< (q - 1) : Nat)) : ℚ))

/-- The method `qToFloat(number, q)` in binary32 arithmetic.  `number & mask`,
an `unsigned long`, and `2 << (q - 1)`, an `int` cast to `float`, are converted
to `float` and divided in `float`; `number >> q`, a `long`, is converted to
`float` and the sum is taken in `float`.  The integers are as in
`qToFloatExact`. -/
def qToFloat (number : Int) (q : Nat) : ℚ :=
  let mask : Nat :=
    (List.range q).foldl (fun mask i => (mask ||| (1 <<< i) % 2 ^ 32) % 2 ^ 32) 0
  f32Round (f32Round ((number >>> q : Int) : ℚ) +
    f32Round (f32Round ((((number % 2 ^ 32).toNat &&& mask : Nat)) : ℚ)
      / f32Round (((2 <<< (q - 1) : Nat)) : ℚ)))

/-- The method `calcQuat`. -/
def calcQuat (axis : Int) : ℚ := qToFloat axis 30

/-- The method `computeEulerAngles(degrees)` over the reals: each `float`
operation, those of `qToFloat` included, is carried out exactly. -/
noncomputable def computeEulerAngles (degrees : Bool) (s : FusionSample) : FusionSample :=
  let dqw : ℝ := qToFloatExact s.qw 30
  let dqx : ℝ := qToFloatExact s.qx 30
  let dqy : ℝ := qToFloatExact s.qy 30
  let dqz : ℝ := qToFloatExact s.qz 30
  let ysqr := dqy * dqy
  let t0 := -2 * (ysqr + dqz * dqz) + 1
  let t1 := 2 * (dqx * dqy - dqw * dqz)
  let t2 := -2 * (dqx * dqz + dqw * dqy)
  let t3 := 2 * (dqy * dqz - dqw * dqx)
  let t4 := -2 * (dqx * dqx + ysqr) + 1
  let t2 := if t2 > 1 then 1 else t2
  let t2 := if t2 < -1 then -1 else t2
  let pitch := Real.arcsin t2 * 2
  let roll := atan2 t3 t4
  let yaw := atan2 t1 t0
  if degrees then
    let pitch := pitch * (180 / PI)
    let roll := roll * (180 / PI)
    let yaw := yaw * (180 / PI)
    let pitch := if pitch < 0 then 360 + pitch else pitch
    let roll := if roll < 0 then 360 + roll else roll
    let yaw := if yaw < 0 then 360 + yaw else yaw
    { s with pitch := pitch, roll := roll, yaw := yaw }
  else
    { s with pitch := pitch, roll := roll, yaw := yaw }

/-- The method `computeCompassHeading` in floating-point arithmetic: the
returned value and the state with `heading` stored.  `heading` is a `float`
member (the method returns it as `float`); `PI` is a `double`, so each
comparison and each arithmetic step is made in `double` and its result is
rounded to `float` when it is stored in `heading`.  `libmAtan2 y x` is what the
libm function `atan2` returns for the `double` arguments `y`, `x`. -/
def computeCompassHeading (libmAtan2 : ℚ → ℚ → ℚ) (s : FusionSample) : ℚ × FusionSample :=
  let heading : ℚ :=
    if s.my = 0 then f32Round (if s.mx < 0 then PI_double else 0)
    else f32Round (libmAtan2 s.mx s.my)
  let heading :=
    if heading > PI_double then f32Round (f64Round (heading - f64Round (2 * PI_double)))
    else if heading < -PI_double then
      f32Round (f64Round (heading + f64Round (2 * PI_double)))
    else if heading < 0 then f32Round (f64Round (heading + f64Round (2 * PI_double)))
    else heading
  let heading := f32Round (f64Round (heading * f64Round (180 / PI_double)))
  (heading, { s with heading := (heading : ℝ) })

end MPU9250_DMP

/-! ## Tap configuration -/

namespace MPU9250_DMP

/-- The method `dmpSetTap`, run after the driver calls of `tr`.  `axes` is an
`unsigned char`.  Each of the three threshold blocks yields the new `axes`,
whether the block left the method with `return INV_ERROR`, and the trace.  The
code returned by `dmp_register_tap_cb` is discarded, as in the source. -/
def dmpSetTap (K : DriverConsts) (drv : Driver) (i2cAddr : Nat)
    (xThresh yThresh zThresh taps tapTime tapMulti : Nat) (tr : Trace) : Int × Trace :=
  let axes : Nat := 0
  let bx : Nat × Bool × Trace :=
    if xThresh > 0 then
      let axes := (axes ||| K.TAP_X) % 256
      let xThresh := constrain xThresh 1 1600
      let r := issue drv tr (DriverCall.dmp_set_tap_thresh i2cAddr ((1 <<< K.X_AXIS) % 256) xThresh)
      (axes, decide (r.1 ≠ K.INV_SUCCESS), r.2)
    else (axes, false, tr)
  if bx.2.1 then (K.INV_ERROR, bx.2.2) else
  let axes := bx.1
  let tr := bx.2.2
  let byy : Nat × Bool × Trace :=
    if yThresh > 0 then
      let axes := (axes ||| K.TAP_Y) % 256
      let yThresh := constrain yThresh 1 1600
      let r := issue drv tr (DriverCall.dmp_set_tap_thresh i2cAddr ((1 <<< K.Y_AXIS) % 256) yThresh)
      (axes, decide (r.1 ≠ K.INV_SUCCESS), r.2)
    else (axes, false, tr)
  if byy.2.1 then (K.INV_ERROR, byy.2.2) else
  let axes := byy.1
  let tr := byy.2.2
  let bz : Nat × Bool × Trace :=
    if zThresh > 0 then
      let axes := (axes ||| K.TAP_Z) % 256
      let zThresh := constrain zThresh 1 1600
      let r := issue drv tr (DriverCall.dmp_set_tap_thresh i2cAddr ((1 <<< K.Z_AXIS) % 256) zThresh)
      (axes, decide (r.1 ≠ K.INV_SUCCESS), r.2)
    else (axes, false, tr)
  if bz.2.1 then (K.INV_ERROR, bz.2.2) else
  let axes := bz.1
  let tr := bz.2.2
  let ra := issue drv tr (DriverCall.dmp_set_tap_axes i2cAddr axes)
  if ra.1 ≠ K.INV_SUCCESS then (K.INV_ERROR, ra.2) else
  let rc := issue drv ra.2 (DriverCall.dmp_set_tap_count i2cAddr taps)
  if rc.1 ≠ K.INV_SUCCESS then (K.INV_ERROR, rc.2) else
  let rt := issue drv rc.2 (DriverCall.dmp_set_tap_time i2cAddr tapTime)
  if rt.1 ≠ K.INV_SUCCESS then (K.INV_ERROR, rt.2) else
  let rm := issue drv rt.2 (DriverCall.dmp_set_tap_time_multi i2cAddr tapMulti)
  if rm.1 ≠ K.INV_SUCCESS then (K.INV_ERROR, rm.2) else
  let rcb := issue drv rm.2 DriverCall.dmp_register_tap_cb
  (K.INV_SUCCESS, rcb.2)

end MPU9250_DMP

/-! ## The raw sample reader -/

/-- The register reads that the raw sample reader asks of the driver. -/
inductive SensorCall where
  | mpu_get_accel_reg (addr : Nat)
  | mpu_get_gyro_reg (addr : Nat)
  | mpu_get_compass_reg (addr : Nat)
  | mpu_get_temperature (addr : Nat)
deriving DecidableEq, Repr

/-- What one register read leaves behind: the code it returns, the contents of
its `data` buffer after the call (for `mpu_get_temperature`, whose `data`
points at the member `temperature`, entry 0), and the value of the member
`time`, to which `timestamp` points, after the call. -/
structure RegRead where
  err : Int
  data : Nat → Int
  timestamp : Nat

/-- The register reads made so far, oldest first, each with the code it returned. -/
abbrev SensorTrace := List (SensorCall × Int)

/-- The driver as seen by the raw sample reader: the outcome of a read may
depend on the reads made before it and on the sample state it is handed
pointers into. -/
abbrev SensorDriver := SensorTrace → FusionSample → SensorCall → RegRead

/-- A sensor driver all of whose reads succeed. -/
def okSensors : SensorDriver := fun _ _ _ => ⟨0, fun i => 7 + i, 42⟩

namespace MPU9250_DMP

end MPU9250_DMP

/-! ## Theorems -/

theorem MPU9250_DMP.pollTap_eq (n : Nat) (s : TapState) : MPU9250_DMP.pollTap n s = s := by
  induction n with
  | zero => rfl
  | succ k ih =>
    simpa [MPU9250_DMP.pollTap, Function.iterate_succ_apply', MPU9250_DMP.tapAvailable] using ih

/-- C1: after any `tap_cb d c` the flag reads true across any number of
`tapAvailable` calls; the first `getTapDir` (resp. `getTapCount`) returns `d`
(resp. `c`), makes `tapAvailable` false and keeps the stored direction and
count; a second `tap_cb d2 c2` arriving before any read makes the subsequent
reads return `d2` and `c2`. -/
theorem MPU9250_DMP.tap_latch (s : TapState) (d c n : Nat) :
    (MPU9250_DMP.tapAvailable (MPU9250_DMP.pollTap n (tap_cb d c s))).1 = true ∧
    (MPU9250_DMP.getTapDir (MPU9250_DMP.pollTap n (tap_cb d c s))).1 = d ∧
    (MPU9250_DMP.tapAvailable
      (MPU9250_DMP.getTapDir (MPU9250_DMP.pollTap n (tap_cb d c s))).2).1 = false ∧
    (MPU9250_DMP.getTapDir (MPU9250_DMP.pollTap n (tap_cb d c s))).2.tap_direction = d ∧
    (MPU9250_DMP.getTapDir (MPU9250_DMP.pollTap n (tap_cb d c s))).2.tap_count = c ∧
    (MPU9250_DMP.getTapCount (MPU9250_DMP.pollTap n (tap_cb d c s))).1 = c ∧
    (MPU9250_DMP.tapAvailable
      (MPU9250_DMP.getTapCount (MPU9250_DMP.pollTap n (tap_cb d c s))).2).1 = false ∧
    (MPU9250_DMP.getTapCount (MPU9250_DMP.pollTap n (tap_cb d c s))).2.tap_direction = d ∧
    (MPU9250_DMP.getTapCount (MPU9250_DMP.pollTap n (tap_cb d c s))).2.tap_count = c ∧
    ∀ d2 c2 m : Nat,
      (MPU9250_DMP.tapAvailable
        (MPU9250_DMP.pollTap m (tap_cb d2 c2 (MPU9250_DMP.pollTap n (tap_cb d c s))))).1 = true ∧
      (MPU9250_DMP.getTapDir
        (MPU9250_DMP.pollTap m (tap_cb d2 c2 (MPU9250_DMP.pollTap n (tap_cb d c s))))).1 = d2 ∧
      (MPU9250_DMP.getTapCount
        (MPU9250_DMP.pollTap m (tap_cb d2 c2 (MPU9250_DMP.pollTap n (tap_cb d c s))))).1 = c2 ∧
      (MPU9250_DMP.getTapCount (MPU9250_DMP.getTapDir
        (MPU9250_DMP.pollTap m (tap_cb d2 c2 (MPU9250_DMP.pollTap n (tap_cb d c s))))).2).1 = c2 ∧
      (MPU9250_DMP.getTapDir (MPU9250_DMP.getTapCount
        (MPU9250_DMP.pollTap m (tap_cb d2 c2 (MPU9250_DMP.pollTap n (tap_cb d c s))))).2).1 = d2 := by
  simp [MPU9250_DMP.pollTap_eq, MPU9250_DMP.tapAvailable, MPU9250_DMP.getTapDir,
    MPU9250_DMP.getTapCount, tap_cb]

/-! ### Starting the DMP -/

theorem featureMasks_append (a b : Trace) :
    featureMasks (a ++ b) = featureMasks a ++ featureMasks b := by
  induction a with
  | nil => rfl
  | cons h t ih =>
    obtain ⟨c, r⟩ := h
    cases c <;> simp [featureMasks, ih]

theorem clear_bits_testBit (f c i : Nat) (hf : f < 65536) :
    ((f &&& (65535 ^^^ c)) % 65536).testBit i = (f.testBit i && !c.testBit i) := by
  have h16 : (65536 : Nat) = 2 ^ 16 := by norm_num
  have h15 : (65535 : Nat) = 2 ^ 16 - 1 := by norm_num
  rw [h16, Nat.testBit_mod_two_pow, Nat.testBit_and, Nat.testBit_xor, h15,
    Nat.testBit_two_pow_sub_one]
  by_cases hi : i < 16
  · simp [hi]
  · have : f.testBit i = false := by
      apply Nat.testBit_lt_two_pow
      calc f < 2 ^ 16 := by simpa using hf
        _ ≤ 2 ^ i := Nat.pow_le_pow_right (by norm_num) (by omega)
    simp [hi, this]

theorem or_mod_testBit (a b i : Nat) (ha : a < 65536) (hb : b < 65536) :
    ((((0 ||| a) % 65536) ||| b) % 65536).testBit i = (a.testBit i || b.testBit i) := by
  have h16 : (65536 : Nat) = 2 ^ 16 := by norm_num
  have h1 : (0 ||| a) % 65536 = a := by
    rw [Nat.zero_or]
    exact Nat.mod_eq_of_lt ha
  have h2 : (a ||| b) % 65536 = a ||| b := by
    apply Nat.mod_eq_of_lt
    rw [h16] at ha hb ⊢
    exact Nat.or_lt_two_pow ha hb
  rw [h1, h2, Nat.testBit_or]

/-- C2: when the firmware load succeeds, `dmpBegin f rate` issues exactly one
feature-enable command, and its mask is `f`, with the bits of the 6-axis
quaternion constant cleared when `f` has a 3-axis quaternion bit, OR-ed with
the tap constant.  When the three constants are distinct single bits, the tap
bit of the mask is always set, and a request for both quaternion features
yields a mask with the 3-axis bit set and the 6-axis bit clear. -/
theorem MPU9250_DMP.dmpBegin_feature_mask (K : DriverConsts) (drv : Driver)
    (addr f rate : Nat) (hf : f < 65536) (htap : K.DMP_FEATURE_TAP < 65536)
    (hload : drv [] (DriverCall.dmp_load_motion_driver_firmware addr) = K.INV_SUCCESS) :
    ∃ m : Nat, featureMasks (MPU9250_DMP.dmpBegin K drv addr f rate []).2 = [m] ∧
      (∀ i : Nat, m.testBit i =
        ((f.testBit i &&
            !(decide (f &&& K.DMP_FEATURE_LP_QUAT ≠ 0) && K.DMP_FEATURE_6X_LP_QUAT.testBit i))
          || K.DMP_FEATURE_TAP.testBit i)) ∧
      (∀ a b c : Nat, K.DMP_FEATURE_LP_QUAT = 2 ^ a → K.DMP_FEATURE_6X_LP_QUAT = 2 ^ b →
        K.DMP_FEATURE_TAP = 2 ^ c → a ≠ b → b ≠ c →
        m.testBit c = true ∧
        (f.testBit a = true → f.testBit b = true →
          m.testBit a = true ∧ m.testBit b = false)) := by
  have key : ∃ m : Nat, featureMasks (MPU9250_DMP.dmpBegin K drv addr f rate []).2 = [m] ∧
      (∀ i : Nat, m.testBit i =
        ((f.testBit i &&
            !(decide (f &&& K.DMP_FEATURE_LP_QUAT ≠ 0) && K.DMP_FEATURE_6X_LP_QUAT.testBit i))
          || K.DMP_FEATURE_TAP.testBit i)) := by
    by_cases hlp : f &&& K.DMP_FEATURE_LP_QUAT ≠ 0
    · have hlt : (f &&& (65535 ^^^ K.DMP_FEATURE_6X_LP_QUAT)) % 65536 < 65536 :=
        Nat.mod_lt _ (by norm_num)
      refine ⟨((0 ||| (f &&& (65535 ^^^ K.DMP_FEATURE_6X_LP_QUAT)) % 65536) % 65536
        ||| K.DMP_FEATURE_TAP) % 65536, ?_, ?_⟩
      · simp only [MPU9250_DMP.dmpBegin, MPU9250_DMP.dmpLoad, MPU9250_DMP.dmpEnableFeatures,
          MPU9250_DMP.dmpSetFifoRate, issue, hload, hlp, ne_eq, not_true_eq_false,
          not_false_eq_true, if_true, if_false]
        split_ifs <;> simp [featureMasks_append, featureMasks]
      · intro i
        rw [or_mod_testBit _ _ i hlt htap, clear_bits_testBit f _ i hf]
        simp [hlp]
    · refine ⟨((0 ||| f) % 65536 ||| K.DMP_FEATURE_TAP) % 65536, ?_, ?_⟩
      · simp only [MPU9250_DMP.dmpBegin, MPU9250_DMP.dmpLoad, MPU9250_DMP.dmpEnableFeatures,
          MPU9250_DMP.dmpSetFifoRate, issue, hload, hlp, ne_eq, not_true_eq_false,
          not_false_eq_true, if_true, if_false]
        split_ifs <;> simp [featureMasks_append, featureMasks]
      · intro i
        rw [or_mod_testBit _ _ i hf htap]
        simp [hlp]
  obtain ⟨m, hm, hbits⟩ := key
  refine ⟨m, hm, hbits, ?_⟩
  intro a b c ha hb hc hab hbc
  refine ⟨?_, ?_⟩
  · rw [hbits, hc, Nat.testBit_two_pow]
    simp
  · intro hfa hfb
    have hlp : f &&& K.DMP_FEATURE_LP_QUAT ≠ 0 := by
      intro h0
      have h1 : (f &&& K.DMP_FEATURE_LP_QUAT).testBit a = true := by
        rw [Nat.testBit_and, hfa, ha, Nat.testBit_two_pow]
        simp
      rw [h0] at h1
      simp at h1
    refine ⟨?_, ?_⟩
    · rw [hbits, hb, hc, Nat.testBit_two_pow, Nat.testBit_two_pow, hfa]
      simp [Ne.symm hab]
    · rw [hbits, hb, hc, Nat.testBit_two_pow, Nat.testBit_two_pow, hfb]
      simp [hlp, Ne.symm hbc]

/-- Witness of C2 with the constants of `sampleConsts`, both quaternion
features requested. -/
theorem MPU9250_DMP.dmpBegin_feature_mask_witness :
    ∃ m : Nat, featureMasks (MPU9250_DMP.dmpBegin sampleConsts okDriver 104 20 100 []).2 = [m] ∧
      (∀ i : Nat, m.testBit i =
        (((20 : Nat).testBit i &&
            !(decide ((20 : Nat) &&& sampleConsts.DMP_FEATURE_LP_QUAT ≠ 0) &&
              sampleConsts.DMP_FEATURE_6X_LP_QUAT.testBit i))
          || sampleConsts.DMP_FEATURE_TAP.testBit i)) ∧
      (∀ a b c : Nat, sampleConsts.DMP_FEATURE_LP_QUAT = 2 ^ a →
        sampleConsts.DMP_FEATURE_6X_LP_QUAT = 2 ^ b →
        sampleConsts.DMP_FEATURE_TAP = 2 ^ c → a ≠ b → b ≠ c →
        m.testBit c = true ∧
        ((20 : Nat).testBit a = true → (20 : Nat).testBit b = true →
          m.testBit a = true ∧ m.testBit b = false)) :=
  MPU9250_DMP.dmpBegin_feature_mask sampleConsts okDriver 104 20 100 (by decide) (by decide)
    (by decide)

/-- C3: when the firmware upload fails, `dmpBegin` returns `INV_ERROR`, a
failure code, and the upload attempt is the only driver call it adds to the
trace: no quaternion enable, gyro-calibration enable, feature enable, FIFO-rate
or DMP-state call follows. -/
theorem MPU9250_DMP.dmpBegin_load_failure (K : DriverConsts) (drv : Driver)
    (addr f rate : Nat) (tr : Trace) (hne : K.INV_ERROR ≠ K.INV_SUCCESS)
    (hload : drv tr (DriverCall.dmp_load_motion_driver_firmware addr) ≠ K.INV_SUCCESS) :
    (MPU9250_DMP.dmpBegin K drv addr f rate tr).1 = K.INV_ERROR ∧
    (MPU9250_DMP.dmpBegin K drv addr f rate tr).1 ≠ K.INV_SUCCESS ∧
    (MPU9250_DMP.dmpBegin K drv addr f rate tr).2 =
      tr ++ [(DriverCall.dmp_load_motion_driver_firmware addr,
        drv tr (DriverCall.dmp_load_motion_driver_firmware addr))] := by
  have h : MPU9250_DMP.dmpBegin K drv addr f rate tr =
      (K.INV_ERROR, tr ++ [(DriverCall.dmp_load_motion_driver_firmware addr,
        drv tr (DriverCall.dmp_load_motion_driver_firmware addr))]) := by
    simp only [MPU9250_DMP.dmpBegin, MPU9250_DMP.dmpLoad, issue]
    rw [if_pos hload]
  rw [h]
  exact ⟨rfl, hne, rfl⟩

/-- Witness of C3: a failing upload with all three optional features requested. -/
theorem MPU9250_DMP.dmpBegin_load_failure_witness :
    (MPU9250_DMP.dmpBegin sampleConsts loadFailDriver 104 52 100 []).1
      = sampleConsts.INV_ERROR ∧
    (MPU9250_DMP.dmpBegin sampleConsts loadFailDriver 104 52 100 []).1
      ≠ sampleConsts.INV_SUCCESS ∧
    (MPU9250_DMP.dmpBegin sampleConsts loadFailDriver 104 52 100 []).2 =
      [] ++ [(DriverCall.dmp_load_motion_driver_firmware 104,
        loadFailDriver [] (DriverCall.dmp_load_motion_driver_firmware 104))] :=
  MPU9250_DMP.dmpBegin_load_failure sampleConsts loadFailDriver 104 52 100 [] (by decide)
    (by decide)

/-- C6: when the FIFO read reports an error, `updateFifo` and `dmpUpdateFifo`
return the driver's code, which is not `INV_SUCCESS`, and the sample state,
time stamp included, is the state before the call, whatever the buffers hold. -/
theorem MPU9250_DMP.updateFifo_error_atomic (K : DriverConsts) (s : FusionSample)
    (r : FifoRead) (d : DmpFifoRead)
    (hr : r.err ≠ K.INV_SUCCESS) (hd : d.err ≠ K.INV_SUCCESS) :
    MPU9250_DMP.updateFifo K s r = (r.err, s) ∧
    (MPU9250_DMP.updateFifo K s r).1 ≠ K.INV_SUCCESS ∧
    MPU9250_DMP.dmpUpdateFifo K s d = (d.err, s) ∧
    (MPU9250_DMP.dmpUpdateFifo K s d).1 ≠ K.INV_SUCCESS := by
  have h1 : MPU9250_DMP.updateFifo K s r = (r.err, s) := by
    simp only [MPU9250_DMP.updateFifo]
    rw [if_pos hr]
  have h2 : MPU9250_DMP.dmpUpdateFifo K s d = (d.err, s) := by
    simp only [MPU9250_DMP.dmpUpdateFifo]
    rw [if_pos hd]
  rw [h1, h2]
  exact ⟨rfl, hr, rfl, hd⟩

/-- Witness of C6: failed reads with garbage in every buffer. -/
theorem MPU9250_DMP.updateFifo_error_atomic_witness :
    MPU9250_DMP.updateFifo sampleConsts oldSample failedRead = (failedRead.err, oldSample) ∧
    (MPU9250_DMP.updateFifo sampleConsts oldSample failedRead).1 ≠ sampleConsts.INV_SUCCESS ∧
    MPU9250_DMP.dmpUpdateFifo sampleConsts oldSample failedDmpRead
      = (failedDmpRead.err, oldSample) ∧
    (MPU9250_DMP.dmpUpdateFifo sampleConsts oldSample failedDmpRead).1
      ≠ sampleConsts.INV_SUCCESS :=
  MPU9250_DMP.updateFifo_error_atomic sampleConsts oldSample failedRead failedDmpRead
    (by decide) (by decide)

/-- C5: after a successful `updateFifo` or `dmpUpdateFifo`, each field group
whose bit is set in the packet's sensor mask holds the packet's value, each
field group whose bit is clear holds its value from before the call, and the
magnetometer, temperature and angle fields (and, for `updateFifo`, the
quaternion) are never touched.  In particular a packet whose mask is exactly
the accelerometer bit leaves gyroscope and quaternion unchanged. -/
theorem MPU9250_DMP.updateFifo_frame (K : DriverConsts) (s : FusionSample)
    (r : FifoRead) (d : DmpFifoRead)
    (hr : r.err = K.INV_SUCCESS) (hd : d.err = K.INV_SUCCESS) :
    ((MPU9250_DMP.updateFifo K s r).1 = K.INV_SUCCESS ∧
      (r.sensors &&& INV_XYZ_ACCEL ≠ 0 →
        (MPU9250_DMP.updateFifo K s r).2.ax = r.accel K.X_AXIS ∧
        (MPU9250_DMP.updateFifo K s r).2.ay = r.accel K.Y_AXIS ∧
        (MPU9250_DMP.updateFifo K s r).2.az = r.accel K.Z_AXIS) ∧
      (r.sensors &&& INV_XYZ_ACCEL = 0 →
        (MPU9250_DMP.updateFifo K s r).2.ax = s.ax ∧
        (MPU9250_DMP.updateFifo K s r).2.ay = s.ay ∧
        (MPU9250_DMP.updateFifo K s r).2.az = s.az) ∧
      (r.sensors &&& INV_X_GYRO ≠ 0 → (MPU9250_DMP.updateFifo K s r).2.gx = r.gyro K.X_AXIS) ∧
      (r.sensors &&& INV_X_GYRO = 0 → (MPU9250_DMP.updateFifo K s r).2.gx = s.gx) ∧
      (r.sensors &&& INV_Y_GYRO ≠ 0 → (MPU9250_DMP.updateFifo K s r).2.gy = r.gyro K.Y_AXIS) ∧
      (r.sensors &&& INV_Y_GYRO = 0 → (MPU9250_DMP.updateFifo K s r).2.gy = s.gy) ∧
      (r.sensors &&& INV_Z_GYRO ≠ 0 → (MPU9250_DMP.updateFifo K s r).2.gz = r.gyro K.Z_AXIS) ∧
      (r.sensors &&& INV_Z_GYRO = 0 → (MPU9250_DMP.updateFifo K s r).2.gz = s.gz) ∧
      ((MPU9250_DMP.updateFifo K s r).2.qw = s.qw ∧
        (MPU9250_DMP.updateFifo K s r).2.qx = s.qx ∧
        (MPU9250_DMP.updateFifo K s r).2.qy = s.qy ∧
        (MPU9250_DMP.updateFifo K s r).2.qz = s.qz) ∧
      ((MPU9250_DMP.updateFifo K s r).2.mx = s.mx ∧
        (MPU9250_DMP.updateFifo K s r).2.my = s.my ∧
        (MPU9250_DMP.updateFifo K s r).2.mz = s.mz ∧
        (MPU9250_DMP.updateFifo K s r).2.temperature = s.temperature ∧
        (MPU9250_DMP.updateFifo K s r).2.pitch = s.pitch ∧
        (MPU9250_DMP.updateFifo K s r).2.roll = s.roll ∧
        (MPU9250_DMP.updateFifo K s r).2.yaw = s.yaw ∧
        (MPU9250_DMP.updateFifo K s r).2.heading = s.heading) ∧
      (r.sensors = INV_XYZ_ACCEL →
        (MPU9250_DMP.updateFifo K s r).2.gx = s.gx ∧
        (MPU9250_DMP.updateFifo K s r).2.gy = s.gy ∧
        (MPU9250_DMP.updateFifo K s r).2.gz = s.gz)) ∧
    ((MPU9250_DMP.dmpUpdateFifo K s d).1 = K.INV_SUCCESS ∧
      (d.sensors &&& INV_XYZ_ACCEL ≠ 0 →
        (MPU9250_DMP.dmpUpdateFifo K s d).2.ax = d.accel K.X_AXIS ∧
        (MPU9250_DMP.dmpUpdateFifo K s d).2.ay = d.accel K.Y_AXIS ∧
        (MPU9250_DMP.dmpUpdateFifo K s d).2.az = d.accel K.Z_AXIS) ∧
      (d.sensors &&& INV_XYZ_ACCEL = 0 →
        (MPU9250_DMP.dmpUpdateFifo K s d).2.ax = s.ax ∧
        (MPU9250_DMP.dmpUpdateFifo K s d).2.ay = s.ay ∧
        (MPU9250_DMP.dmpUpdateFifo K s d).2.az = s.az) ∧
      (d.sensors &&& INV_X_GYRO ≠ 0 →
        (MPU9250_DMP.dmpUpdateFifo K s d).2.gx = d.gyro K.X_AXIS) ∧
      (d.sensors &&& INV_X_GYRO = 0 → (MPU9250_DMP.dmpUpdateFifo K s d).2.gx = s.gx) ∧
      (d.sensors &&& INV_Y_GYRO ≠ 0 →
        (MPU9250_DMP.dmpUpdateFifo K s d).2.gy = d.gyro K.Y_AXIS) ∧
      (d.sensors &&& INV_Y_GYRO = 0 → (MPU9250_DMP.dmpUpdateFifo K s d).2.gy = s.gy) ∧
      (d.sensors &&& INV_Z_GYRO ≠ 0 →
        (MPU9250_DMP.dmpUpdateFifo K s d).2.gz = d.gyro K.Z_AXIS) ∧
      (d.sensors &&& INV_Z_GYRO = 0 → (MPU9250_DMP.dmpUpdateFifo K s d).2.gz = s.gz) ∧
      (d.sensors &&& K.INV_WXYZ_QUAT ≠ 0 →
        (MPU9250_DMP.dmpUpdateFifo K s d).2.qw = d.quat 0 ∧
        (MPU9250_DMP.dmpUpdateFifo K s d).2.qx = d.quat 1 ∧
        (MPU9250_DMP.dmpUpdateFifo K s d).2.qy = d.quat 2 ∧
        (MPU9250_DMP.dmpUpdateFifo K s d).2.qz = d.quat 3) ∧
      (d.sensors &&& K.INV_WXYZ_QUAT = 0 →
        (MPU9250_DMP.dmpUpdateFifo K s d).2.qw = s.qw ∧
        (MPU9250_DMP.dmpUpdateFifo K s d).2.qx = s.qx ∧
        (MPU9250_DMP.dmpUpdateFifo K s d).2.qy = s.qy ∧
        (MPU9250_DMP.dmpUpdateFifo K s d).2.qz = s.qz) ∧
      ((MPU9250_DMP.dmpUpdateFifo K s d).2.mx = s.mx ∧
        (MPU9250_DMP.dmpUpdateFifo K s d).2.my = s.my ∧
        (MPU9250_DMP.dmpUpdateFifo K s d).2.mz = s.mz ∧
        (MPU9250_DMP.dmpUpdateFifo K s d).2.temperature = s.temperature ∧
        (MPU9250_DMP.dmpUpdateFifo K s d).2.pitch = s.pitch ∧
        (MPU9250_DMP.dmpUpdateFifo K s d).2.roll = s.roll ∧
        (MPU9250_DMP.dmpUpdateFifo K s d).2.yaw = s.yaw ∧
        (MPU9250_DMP.dmpUpdateFifo K s d).2.heading = s.heading) ∧
      (d.sensors = INV_XYZ_ACCEL → INV_XYZ_ACCEL &&& K.INV_WXYZ_QUAT = 0 →
        (MPU9250_DMP.dmpUpdateFifo K s d).2.gx = s.gx ∧
        (MPU9250_DMP.dmpUpdateFifo K s d).2.gy = s.gy ∧
        (MPU9250_DMP.dmpUpdateFifo K s d).2.gz = s.gz ∧
        (MPU9250_DMP.dmpUpdateFifo K s d).2.qw = s.qw ∧
        (MPU9250_DMP.dmpUpdateFifo K s d).2.qx = s.qx ∧
        (MPU9250_DMP.dmpUpdateFifo K s d).2.qy = s.qy ∧
        (MPU9250_DMP.dmpUpdateFifo K s d).2.qz = s.qz)) := by
  have e1 : (8 : Nat) &&& 64 = 0 := by decide
  have e2 : (8 : Nat) &&& 32 = 0 := by decide
  have e3 : (8 : Nat) &&& 16 = 0 := by decide
  constructor
  · simp only [MPU9250_DMP.updateFifo, hr, ne_eq, not_true_eq_false, if_false,
      apply_ite FusionSample.ax, apply_ite FusionSample.ay, apply_ite FusionSample.az,
      apply_ite FusionSample.gx, apply_ite FusionSample.gy, apply_ite FusionSample.gz,
      apply_ite FusionSample.qw, apply_ite FusionSample.qx, apply_ite FusionSample.qy,
      apply_ite FusionSample.qz, apply_ite FusionSample.mx, apply_ite FusionSample.my,
      apply_ite FusionSample.mz, apply_ite FusionSample.temperature,
      apply_ite FusionSample.pitch, apply_ite FusionSample.roll, apply_ite FusionSample.yaw,
      apply_ite FusionSample.heading, ite_self]
    refine ⟨trivial, ?_, ?_, ?_, ?_, ?_, ?_, ?_, ?_, ?_, ?_, ?_⟩
    · intro h; simp [h]
    · intro h; simp [h]
    · intro h; simp [h]
    · intro h; simp [h]
    · intro h; simp [h]
    · intro h; simp [h]
    · intro h; simp [h]
    · intro h; simp [h]
    · simp
    · simp
    · intro h
      simp [h, INV_XYZ_ACCEL, INV_X_GYRO, INV_Y_GYRO, INV_Z_GYRO, e1, e2, e3]
  · simp only [MPU9250_DMP.dmpUpdateFifo, hd, ne_eq, not_true_eq_false, if_false,
      apply_ite FusionSample.ax, apply_ite FusionSample.ay, apply_ite FusionSample.az,
      apply_ite FusionSample.gx, apply_ite FusionSample.gy, apply_ite FusionSample.gz,
      apply_ite FusionSample.qw, apply_ite FusionSample.qx, apply_ite FusionSample.qy,
      apply_ite FusionSample.qz, apply_ite FusionSample.mx, apply_ite FusionSample.my,
      apply_ite FusionSample.mz, apply_ite FusionSample.temperature,
      apply_ite FusionSample.pitch, apply_ite FusionSample.roll, apply_ite FusionSample.yaw,
      apply_ite FusionSample.heading, ite_self]
    refine ⟨trivial, ?_, ?_, ?_, ?_, ?_, ?_, ?_, ?_, ?_, ?_, ?_, ?_⟩
    · intro h; simp [h]
    · intro h; simp [h]
    · intro h; simp [h]
    · intro h; simp [h]
    · intro h; simp [h]
    · intro h; simp [h]
    · intro h; simp [h]
    · intro h; simp [h]
    · intro h; simp [h]
    · intro h; simp [h]
    · simp
    · intro h hq
      rw [INV_XYZ_ACCEL] at hq
      simp [h, hq, INV_XYZ_ACCEL, INV_X_GYRO, INV_Y_GYRO, INV_Z_GYRO, e1, e2, e3]

/-- Witness of C5: accelerometer-only packets leave gyroscope and quaternion
as they were. -/
theorem MPU9250_DMP.updateFifo_frame_witness :
    ((MPU9250_DMP.updateFifo sampleConsts oldSample accelOnlyRead).2.gx = oldSample.gx ∧
      (MPU9250_DMP.updateFifo sampleConsts oldSample accelOnlyRead).2.gy = oldSample.gy ∧
      (MPU9250_DMP.updateFifo sampleConsts oldSample accelOnlyRead).2.gz = oldSample.gz) ∧
    ((MPU9250_DMP.dmpUpdateFifo sampleConsts oldSample accelOnlyDmpRead).2.gx = oldSample.gx ∧
      (MPU9250_DMP.dmpUpdateFifo sampleConsts oldSample accelOnlyDmpRead).2.gy = oldSample.gy ∧
      (MPU9250_DMP.dmpUpdateFifo sampleConsts oldSample accelOnlyDmpRead).2.gz = oldSample.gz ∧
      (MPU9250_DMP.dmpUpdateFifo sampleConsts oldSample accelOnlyDmpRead).2.qw = oldSample.qw ∧
      (MPU9250_DMP.dmpUpdateFifo sampleConsts oldSample accelOnlyDmpRead).2.qx = oldSample.qx ∧
      (MPU9250_DMP.dmpUpdateFifo sampleConsts oldSample accelOnlyDmpRead).2.qy = oldSample.qy ∧
      (MPU9250_DMP.dmpUpdateFifo sampleConsts oldSample accelOnlyDmpRead).2.qz
        = oldSample.qz) :=
  ⟨(MPU9250_DMP.updateFifo_frame sampleConsts oldSample accelOnlyRead accelOnlyDmpRead
      (by decide) (by decide)).1.2.2.2.2.2.2.2.2.2.2.2 rfl,
    (MPU9250_DMP.updateFifo_frame sampleConsts oldSample accelOnlyRead accelOnlyDmpRead
      (by decide) (by decide)).2.2.2.2.2.2.2.2.2.2.2.2.2 rfl (by decide)⟩

/-! ### The real function `atan2` -/

theorem atan2_le_pi (y x : ℝ) : atan2 y x ≤ Real.pi := Complex.arg_le_pi _

theorem neg_pi_lt_atan2 (y x : ℝ) : -Real.pi < atan2 y x := Complex.neg_pi_lt_arg _

theorem atan2_zero_pos {x : ℝ} (hx : 0 < x) : atan2 0 x = 0 := by
  have h : (⟨x, 0⟩ : ℂ) = ((x : ℝ) : ℂ) := rfl
  rw [atan2, h]
  exact Complex.arg_ofReal_of_nonneg hx.le

/-! ### Fixed-point conversion -/

theorem qToFloat_mask (q : Nat) (hq : q ≤ 32) :
    (List.range q).foldl (fun mask i => (mask ||| (1 <<< i) % 2 ^ 32) % 2 ^ 32) 0
      = 2 ^ q - 1 := by
  induction q with
  | zero => rfl
  | succ k ih =>
    have hk : k < 32 := hq
    have hlt : 2 ^ k < 2 ^ 32 := Nat.pow_lt_pow_right (by norm_num) hk
    have hle : 2 ^ (k + 1) ≤ 2 ^ 32 := Nat.pow_le_pow_right (by norm_num) hq
    have hpos : 0 < 2 ^ k := Nat.pos_of_ne_zero (by positivity)
    rw [List.range_succ, List.foldl_append, ih (by omega)]
    simp only [List.foldl_cons, List.foldl_nil, Nat.one_shiftLeft]
    rw [Nat.mod_eq_of_lt hlt]
    have hor : 2 ^ k - 1 ||| 2 ^ k = 2 ^ (k + 1) - 1 := by
      have h := Nat.mul_add_lt_is_or (show 2 ^ k - 1 < 2 ^ k by omega) 1
      rw [Nat.mul_one] at h
      rw [Nat.lor_comm, ← h, pow_succ]
      omega
    rw [hor]
    apply Nat.mod_eq_of_lt
    omega

theorem qToFloat_frac (n : Int) (q : Nat) (hq : q ≤ 32) :
    ((((n % 2 ^ 32).toNat &&& (2 ^ q - 1) : Nat)) : Int) = n % 2 ^ q := by
  have h32 : (0 : Int) ≤ n % 2 ^ 32 := Int.emod_nonneg _ (by positivity)
  rw [Nat.and_pow_two_sub_one_eq_mod, Int.natCast_mod, Int.toNat_of_nonneg h32]
  have h := Int.emod_emod_of_dvd n (pow_dvd_pow (2 : Int) hq)
  simpa using h

theorem qToFloat_exact (n : Int) (q : Nat) (h1 : 1 ≤ q) (h2 : q ≤ 30) :
    MPU9250_DMP.qToFloatExact n q = (n : ℚ) / 2 ^ q := by
  have hsh : (2 <<< (q - 1) : Nat) = 2 ^ q := by
    rw [Nat.shiftLeft_eq, ← pow_succ']
    congr 1
    omega
  have hfr := qToFloat_frac n q (by omega)
  simp only [MPU9250_DMP.qToFloatExact]
  rw [qToFloat_mask q (by omega), hsh, Int.shiftRight_eq_div_pow]
  have hcast : ((((n % 2 ^ 32).toNat &&& (2 ^ q - 1) : Nat)) : ℚ) = ((n % 2 ^ q : Int) : ℚ) := by
    rw [← hfr, Int.cast_natCast]
  rw [hcast]
  have hpos : (0 : ℚ) < 2 ^ q := by positivity
  have hdm := Int.ediv_add_emod n (2 ^ q)
  have hdm2 : (2 ^ q : ℚ) * ((n / 2 ^ q : Int) : ℚ) + ((n % 2 ^ q : Int) : ℚ) = (n : ℚ) := by
    exact_mod_cast hdm
  push_cast
  field_simp
  push_cast at hdm2
  linarith

/-! ### Binary floating point -/

theorem roundEven_of_near (y : ℚ) (m : Int) (h : |y - m| < 1 / 2) : roundEven y = m := by
  rw [abs_lt] at h
  obtain ⟨h1, h2⟩ := h
  by_cases hy : (m : ℚ) ≤ y
  · have hf : ⌊y⌋ = m := by
      rw [Int.floor_eq_iff]
      constructor
      · exact hy
      · linarith
    unfold roundEven
    rw [hf, if_pos (by linarith)]
  · have hy2 : y < m := not_le.1 hy
    have hf : ⌊y⌋ = m - 1 := by
      rw [Int.floor_eq_iff]
      push_cast
      constructor <;> linarith
    unfold roundEven
    rw [hf]
    push_cast
    rw [if_neg (by linarith), if_pos (by linarith)]
    ring

theorem roundEven_intCast (m : Int) : roundEven (m : ℚ) = m :=
  roundEven_of_near _ m (by simp)

theorem roundEven_mem (y : ℚ) : roundEven y = ⌊y⌋ ∨ roundEven y = ⌊y⌋ + 1 := by
  unfold roundEven
  split_ifs <;> simp

theorem roundEven_err (y : ℚ) : |(roundEven y : ℚ) - y| ≤ 1 / 2 := by
  have h1 := Int.floor_le y
  have h2 := Int.lt_floor_add_one y
  unfold roundEven
  rw [abs_le]
  split_ifs with ha hb hc <;> push_cast <;> constructor <;> linarith

theorem roundEven_le (y : ℚ) (N : Int) (h : y ≤ N) : roundEven y ≤ N := by
  rcases eq_or_lt_of_le h with he | hl
  · rw [he, roundEven_intCast]
  · have hf : ⌊y⌋ < N := Int.floor_lt.2 hl
    rcases roundEven_mem y with h1 | h1 <;> omega

theorem le_roundEven (y : ℚ) (N : Int) (h : (N : ℚ) ≤ y) : N ≤ roundEven y := by
  have hf : N ≤ ⌊y⌋ := Int.le_floor.2 h
  rcases roundEven_mem y with h1 | h1 <;> omega

theorem fpRound_eval (prec : Nat) (emin : Int) (x : ℚ) (e m : Int)
    (he : emin ≤ e) (h1 : (2 : ℚ) ^ e ≤ |x|) (h2 : |x| < (2 : ℚ) ^ (e + 1))
    (hm : |x / 2 ^ (e - ((prec : Int) - 1)) - m| < 1 / 2) :
    fpRound prec emin x = m * 2 ^ (e - ((prec : Int) - 1)) := by
  have hpos : 0 < |x| := lt_of_lt_of_le (by positivity) h1
  have hx : x ≠ 0 := abs_pos.1 hpos
  have hlog : Int.log 2 |x| = e := by
    apply le_antisymm
    · have := (Int.lt_zpow_iff_log_lt (b := 2) (by norm_num) hpos).1 (by exact_mod_cast h2)
      omega
    · exact (Int.zpow_le_iff_le_log (b := 2) (by norm_num) hpos).1 (by exact_mod_cast h1)
  unfold fpRound
  rw [if_neg hx]
  simp only [hlog, max_eq_left he]
  rw [roundEven_of_near _ m hm]

theorem fpRound_zero (prec : Nat) (emin : Int) : fpRound prec emin 0 = 0 := by
  simp [fpRound]

theorem fpRound_nonneg (prec : Nat) (emin : Int) (x : ℚ) (hx : 0 ≤ x) :
    0 ≤ fpRound prec emin x := by
  unfold fpRound
  split_ifs with h0
  · exact le_rfl
  · have hu : (0 : ℚ) < 2 ^ (max (Int.log 2 |x|) emin - ((prec : Int) - 1)) :=
      zpow_pos (by norm_num) _
    have hy : ((0 : Int) : ℚ) ≤ x / 2 ^ (max (Int.log 2 |x|) emin - ((prec : Int) - 1)) := by
      simpa using div_nonneg hx hu.le
    have hr := le_roundEven _ 0 hy
    exact mul_nonneg (by exact_mod_cast hr) hu.le

theorem log_le_of_abs_le (x : ℚ) (hx : x ≠ 0) (j : Int) (h : |x| ≤ 2 ^ j) :
    Int.log 2 |x| ≤ j := by
  have hpos : 0 < |x| := abs_pos.2 hx
  have h1 : ((2 : ℕ) : ℚ) ^ Int.log 2 |x| ≤ |x| := Int.zpow_log_le_self (by norm_num) hpos
  have h2 : (2 : ℚ) ^ Int.log 2 |x| ≤ 2 ^ j := by
    have : (2 : ℚ) ^ Int.log 2 |x| ≤ |x| := by exact_mod_cast h1
    exact this.trans h
  exact (zpow_le_zpow_iff_right₀ (by norm_num : (1 : ℚ) < 2)).1 h2

theorem fpRound_abs_le (prec : Nat) (emin : Int) (x : ℚ) (j : Int) (hp : 1 ≤ prec)
    (hj : emin ≤ j) (hx : |x| ≤ 2 ^ j) : |fpRound prec emin x| ≤ 2 ^ j := by
  by_cases h0 : x = 0
  · rw [h0, fpRound_zero, abs_zero]
    positivity
  · have hL := log_le_of_abs_le x h0 j hx
    have he : max (Int.log 2 |x|) emin ≤ j := max_le hL hj
    unfold fpRound
    rw [if_neg h0]
    simp only
    generalize max (Int.log 2 |x|) emin = e at he
    have hu : (0 : ℚ) < 2 ^ (e - ((prec : Int) - 1)) := zpow_pos (by norm_num) _
    have hd : 0 ≤ j - e + ((prec : Int) - 1) := by omega
    have hN : (((2 : Int) ^ (j - e + ((prec : Int) - 1)).toNat : Int) : ℚ)
        * 2 ^ (e - ((prec : Int) - 1)) = 2 ^ j := by
      push_cast
      rw [← zpow_natCast, Int.toNat_of_nonneg hd, ← zpow_add₀ (by norm_num)]
      congr 1
      ring
    have hxl := abs_le.1 hx
    have hy1 : x / 2 ^ (e - ((prec : Int) - 1))
        ≤ (((2 : Int) ^ (j - e + ((prec : Int) - 1)).toNat : Int) : ℚ) := by
      rw [div_le_iff₀ hu, hN]
      exact hxl.2
    have hy2 : ((-((2 : Int) ^ (j - e + ((prec : Int) - 1)).toNat) : Int) : ℚ)
        ≤ x / 2 ^ (e - ((prec : Int) - 1)) := by
      rw [le_div_iff₀ hu]
      push_cast
      rw [neg_mul]
      have := hN
      push_cast at this
      rw [this]
      exact hxl.1
    have r1 := roundEven_le _ _ hy1
    have r2 := le_roundEven _ _ hy2
    rw [abs_mul, abs_of_pos hu, ← hN]
    apply mul_le_mul_of_nonneg_right _ hu.le
    rw [abs_le]
    constructor
    · exact_mod_cast r2
    · exact_mod_cast r1

theorem fpRound_half_ulp (prec : Nat) (emin : Int) (x : ℚ) (hx : x ≠ 0) :
    |fpRound prec emin x - x|
      ≤ 2 ^ (max (Int.log 2 |x|) emin - ((prec : Int) - 1)) / 2 := by
  unfold fpRound
  rw [if_neg hx]
  simp only
  generalize max (Int.log 2 |x|) emin = e
  have hu : (0 : ℚ) < 2 ^ (e - ((prec : Int) - 1)) := zpow_pos (by norm_num) _
  have h := roundEven_err (x / 2 ^ (e - ((prec : Int) - 1)))
  have hx2 : x = x / 2 ^ (e - ((prec : Int) - 1)) * 2 ^ (e - ((prec : Int) - 1)) := by
    field_simp
  have e1 : (roundEven (x / 2 ^ (e - ((prec : Int) - 1))) : ℚ) * 2 ^ (e - ((prec : Int) - 1)) - x
      = ((roundEven (x / 2 ^ (e - ((prec : Int) - 1))) : ℚ) - x / 2 ^ (e - ((prec : Int) - 1)))
        * 2 ^ (e - ((prec : Int) - 1)) := by
    rw [sub_mul, ← hx2]
  rw [e1, abs_mul, abs_of_pos hu]
  calc _ ≤ 1 / 2 * 2 ^ (e - ((prec : Int) - 1)) := mul_le_mul_of_nonneg_right h hu.le
    _ = 2 ^ (e - ((prec : Int) - 1)) / 2 := by ring

theorem fpRound_pow_two (prec : Nat) (emin : Int) (j : Int) (hp : 1 ≤ prec) (hj : emin ≤ j)
    (s : ℚ) (hs : s = 1 ∨ s = -1) : fpRound prec emin (s * 2 ^ j) = s * 2 ^ j := by
  have hpos : (0 : ℚ) < 2 ^ j := zpow_pos (by norm_num) _
  have habs : |s * 2 ^ j| = 2 ^ j := by
    rcases hs with h | h <;> subst h <;> simp [abs_of_pos hpos]
  have hm : ∃ m : Int, (m : ℚ) = s * 2 ^ (prec - 1) := by
    rcases hs with h | h <;> subst h
    · exact ⟨2 ^ (prec - 1), by push_cast; ring⟩
    · exact ⟨-2 ^ (prec - 1), by push_cast; ring⟩
  obtain ⟨m, hm⟩ := hm
  have hq : s * 2 ^ j / 2 ^ (j - ((prec : Int) - 1)) = (m : ℚ) := by
    rw [hm, zpow_sub₀ (by norm_num)]
    have hc : ((prec : Int) - 1) = ((prec - 1 : ℕ) : Int) := by omega
    rw [hc, zpow_natCast]
    field_simp
    ring
  rw [fpRound_eval prec emin _ j m hj (by rw [habs]) (by
      rw [habs]
      exact (zpow_lt_zpow_iff_right₀ (by norm_num : (1 : ℚ) < 2)).2 (by omega)) (by
      rw [hq]
      simp)]
  rw [← hq]
  field_simp

theorem fpRound_err (prec : Nat) (emin : Int) (x : ℚ) (k : Int) (hp : 1 ≤ prec)
    (hk : emin ≤ k) (hx : |x| ≤ 2 ^ (k + 1)) :
    |fpRound prec emin x - x| ≤ 2 ^ (k - (prec : Int)) := by
  have hpow : (0 : ℚ) < 2 ^ (k - (prec : Int)) := zpow_pos (by norm_num) _
  by_cases h0 : x = 0
  · rw [h0, fpRound_zero]
    simpa using hpow.le
  · have hL := log_le_of_abs_le x h0 (k + 1) hx
    by_cases hLk : Int.log 2 |x| ≤ k
    · have he : max (Int.log 2 |x|) emin ≤ k := max_le hLk hk
      refine (fpRound_half_ulp prec emin x h0).trans ?_
      generalize max (Int.log 2 |x|) emin = e at he
      have h2 : (2 : ℚ) ^ (e - ((prec : Int) - 1)) / 2 = 2 ^ (e - (prec : Int)) := by
        have : e - ((prec : Int) - 1) = (e - (prec : Int)) + 1 := by ring
        rw [this, zpow_add_one₀ (by norm_num)]
        field_simp
      rw [h2]
      exact zpow_le_zpow_right₀ (by norm_num) (by omega)
    · have hLe : Int.log 2 |x| = k + 1 := by omega
      have hpos : 0 < |x| := abs_pos.2 h0
      have h1 : ((2 : ℕ) : ℚ) ^ Int.log 2 |x| ≤ |x| := Int.zpow_log_le_self (by norm_num) hpos
      rw [hLe] at h1
      have habs : |x| = 2 ^ (k + 1) := le_antisymm hx (by exact_mod_cast h1)
      have hx2 : x = 1 * 2 ^ (k + 1) ∨ x = -1 * 2 ^ (k + 1) := by
        rcases abs_eq (by positivity : (0 : ℚ) ≤ 2 ^ (k + 1)) |>.1 habs with h | h
        · left; rw [h]; ring
        · right; rw [h]; ring
      rcases hx2 with h | h
      · rw [h, fpRound_pow_two prec emin (k + 1) hp (by omega) 1 (Or.inl rfl)]
        simpa using hpow.le
      · rw [h, fpRound_pow_two prec emin (k + 1) hp (by omega) (-1) (Or.inr rfl)]
        simpa using hpow.le

theorem f32Round_two_pow (q : Nat) (hq : q ≤ 127) : f32Round ((2 : ℚ) ^ q) = 2 ^ q := by
  have h := fpRound_pow_two 24 (-126) (q : Int) (by norm_num) (by omega) 1 (Or.inl rfl)
  simpa [f32Round, zpow_natCast] using h

theorem qToFloat_unfold (n : Int) (q : Nat) (h1 : 1 ≤ q) (h2 : q ≤ 30) :
    MPU9250_DMP.qToFloat n q =
      f32Round (f32Round ((n >>> q : Int) : ℚ) +
        f32Round (f32Round ((((n % 2 ^ 32).toNat &&& (2 ^ q - 1) : Nat)) : ℚ) / 2 ^ q)) := by
  have hsh : (2 <<< (q - 1) : Nat) = 2 ^ q := by
    rw [Nat.shiftLeft_eq, ← pow_succ']
    congr 1
    omega
  simp only [MPU9250_DMP.qToFloat]
  rw [qToFloat_mask q (by omega), hsh]
  push_cast
  rw [f32Round_two_pow q (by omega)]

theorem f32Round_small_int (h : Int) (h1 : -2 ≤ h) (h2 : h ≤ 1) : f32Round (h : ℚ) = h := by
  have e1 := fpRound_pow_two 24 (-126) 1 (by norm_num) (by norm_num) (-1) (Or.inr rfl)
  have e2 := fpRound_pow_two 24 (-126) 0 (by norm_num) (by norm_num) (-1) (Or.inr rfl)
  have e3 := fpRound_pow_two 24 (-126) 0 (by norm_num) (by norm_num) 1 (Or.inl rfl)
  have e4 := fpRound_zero 24 (-126)
  norm_num at e1 e2 e3
  unfold f32Round
  interval_cases h
  · norm_num [e1]
  · norm_num [e2]
  · norm_num [e4]
  · norm_num [e3]

theorem calcQuat_error (n : Int) (hlo : -2 ^ 31 ≤ n) (hhi : n < 2 ^ 31) :
    |MPU9250_DMP.calcQuat n - (n : ℚ) / 2 ^ 30| ≤ 1 / 2 ^ 23 := by
  have hfr := qToFloat_frac n 30 (by norm_num)
  have hU0 : (0 : Int) ≤ n % 2 ^ 30 := Int.emod_nonneg _ (by norm_num)
  have hU1 : n % 2 ^ 30 < 2 ^ 30 := Int.emod_lt_of_pos _ (by norm_num)
  have hdm := Int.ediv_add_emod n (2 ^ 30)
  have hh1 : -2 ≤ n / 2 ^ 30 := by omega
  have hh2 : n / 2 ^ 30 ≤ 1 := by omega
  rw [MPU9250_DMP.calcQuat, qToFloat_unfold n 30 (by norm_num) le_rfl,
    Int.shiftRight_eq_div_pow]
  have hcast : ((((n % 2 ^ 32).toNat &&& (2 ^ 30 - 1) : Nat)) : ℚ) = ((n % 2 ^ 30 : Int) : ℚ) := by
    rw [← hfr, Int.cast_natCast]
  rw [hcast]
  have hdiv : ((2 : ℕ) ^ 30 : ℕ) = (2 : ℕ) ^ 30 := rfl
  have ha : f32Round ((n / ((2 ^ 30 : ℕ) : Int) : Int) : ℚ) = ((n / 2 ^ 30 : Int) : ℚ) := by
    have := f32Round_small_int (n / 2 ^ 30) hh1 hh2
    simpa using this
  rw [ha]
  generalize hU : ((n % 2 ^ 30 : Int) : ℚ) = U
  generalize hH : ((n / 2 ^ 30 : Int) : ℚ) = H
  have hUq0 : 0 ≤ U := by rw [← hU]; exact_mod_cast hU0
  have hUq1 : U ≤ 2 ^ 30 := by rw [← hU]; exact_mod_cast hU1.le
  have hHq1 : -2 ≤ H := by rw [← hH]; exact_mod_cast hh1
  have hHq2 : H ≤ 1 := by rw [← hH]; exact_mod_cast hh2
  have hn : (n : ℚ) = 2 ^ 30 * H + U := by
    rw [← hH, ← hU]
    exact_mod_cast hdm.symm
  -- first rounding
  have hF1 := fpRound_err 24 (-126) U 29 (by norm_num) (by norm_num)
    (by rw [abs_of_nonneg hUq0]; norm_num; exact hUq1)
  have hF2 := fpRound_abs_le 24 (-126) U 30 (by norm_num) (by norm_num)
    (by rw [abs_of_nonneg hUq0]; norm_num; exact hUq1)
  have hF3 := fpRound_nonneg 24 (-126) U hUq0
  change |f32Round U - U| ≤ _ at hF1
  change |f32Round U| ≤ _ at hF2
  change 0 ≤ f32Round U at hF3
  generalize f32Round U = F at hF1 hF2 hF3 ⊢
  norm_num at hF1 hF2
  rw [abs_of_nonneg hF3] at hF2
  -- division
  have hD0 : 0 ≤ F / 2 ^ 30 := by positivity
  have hD1 : F / 2 ^ 30 ≤ 1 := by rw [div_le_one (by norm_num)]; exact hF2
  have hd1 := fpRound_err 24 (-126) (F / 2 ^ 30) (-1) (by norm_num) (by norm_num)
    (by rw [abs_of_nonneg hD0]; norm_num; exact hD1)
  have hd2 := fpRound_abs_le 24 (-126) (F / 2 ^ 30) 0 (by norm_num) (by norm_num)
    (by rw [abs_of_nonneg hD0]; norm_num; exact hD1)
  have hd3 := fpRound_nonneg 24 (-126) (F / 2 ^ 30) hD0
  change |f32Round (F / 2 ^ 30) - F / 2 ^ 30| ≤ _ at hd1
  change |f32Round (F / 2 ^ 30)| ≤ _ at hd2
  change 0 ≤ f32Round (F / 2 ^ 30) at hd3
  generalize f32Round (F / 2 ^ 30) = d at hd1 hd2 hd3 ⊢
  norm_num at hd1 hd2
  rw [abs_of_nonneg hd3] at hd2
  -- sum
  have hs := fpRound_err 24 (-126) (H + d) 0 (by norm_num) (by norm_num)
    (by rw [abs_le]; norm_num; constructor <;> linarith)
  change |f32Round (H + d) - (H + d)| ≤ _ at hs
  generalize f32Round (H + d) = s at hs ⊢
  norm_num at hs
  rw [abs_le] at hF1 hd1 hs ⊢
  rw [hn]
  have e : (2 ^ 30 * H + U) / 2 ^ 30 = H + U / 2 ^ 30 := by field_simp; ring
  rw [e]
  constructor <;> linarith [hF1.1, hF1.2, hd1.1, hd1.2, hs.1, hs.2]

theorem two_zpow_sub (w c : Nat) : (2 : ℚ) ^ ((w : Int) - (c : Int)) = 2 ^ w / 2 ^ c := by
  rw [zpow_sub₀ (by norm_num), zpow_natCast, zpow_natCast]

theorem qToFloat_error (n : Int) (q : Nat) (hlo : -2 ^ 31 ≤ n) (hhi : n < 2 ^ 31)
    (h1 : 1 ≤ q) (h2 : q ≤ 30) :
    |MPU9250_DMP.qToFloat n q - (n : ℚ) / 2 ^ q| ≤ 3 * 2 ^ (31 - q) / 2 ^ 25 + 1 / 2 ^ 24 := by
  obtain ⟨w, hw⟩ : ∃ w : Nat, w = 31 - q := ⟨_, rfl⟩
  have hwq : w + q = 31 := by omega
  rw [← hw]
  have hfr := qToFloat_frac n q (by omega)
  have hP : (0 : Int) < 2 ^ q := by positivity
  have hU0 : (0 : Int) ≤ n % 2 ^ q := Int.emod_nonneg _ hP.ne'
  have hU1 : n % 2 ^ q < 2 ^ q := Int.emod_lt_of_pos _ hP
  have hdm := Int.ediv_add_emod n (2 ^ q)
  have h31 : (2 : Int) ^ 31 = 2 ^ w * 2 ^ q := by rw [← pow_add, hwq]
  have hh1 : -2 ^ w ≤ n / 2 ^ q := by
    have := Int.ediv_le_ediv hP hlo
    rw [h31, ← neg_mul, Int.mul_ediv_cancel _ hP.ne'] at this
    exact this
  have hh2 : n / 2 ^ q < 2 ^ w := by
    apply Int.ediv_lt_of_lt_mul hP
    rw [← h31]
    exact hhi
  rw [qToFloat_unfold n q h1 h2, Int.shiftRight_eq_div_pow]
  have hcast : ((((n % 2 ^ 32).toNat &&& (2 ^ q - 1) : Nat)) : ℚ) = ((n % 2 ^ q : Int) : ℚ) := by
    rw [← hfr, Int.cast_natCast]
  rw [hcast]
  have hHc : ((n / ((2 ^ q : ℕ) : Int) : Int) : ℚ) = ((n / 2 ^ q : Int) : ℚ) := by
    push_cast
    rfl
  rw [hHc]
  generalize hU : ((n % 2 ^ q : Int) : ℚ) = U
  generalize hH : ((n / 2 ^ q : Int) : ℚ) = H
  have hUq0 : 0 ≤ U := by rw [← hU]; exact_mod_cast hU0
  have hUq1 : U ≤ 2 ^ q := by rw [← hU]; exact_mod_cast hU1.le
  have hHq1 : -2 ^ w ≤ H := by rw [← hH]; exact_mod_cast hh1
  have hHq2 : H ≤ 2 ^ w := by rw [← hH]; exact_mod_cast hh2.le
  have hn : (n : ℚ) = 2 ^ q * H + U := by
    rw [← hH, ← hU]
    exact_mod_cast hdm.symm
  have hPq : (0 : ℚ) < 2 ^ q := by positivity
  have hWq : (1 : ℚ) ≤ 2 ^ w := one_le_pow₀ (by norm_num)
  -- conversion of the integer part
  have ha1 := fpRound_err 24 (-126) H ((w : Int) - 1) (by norm_num) (by omega)
    (by rw [abs_le, sub_add_cancel, zpow_natCast]; exact ⟨hHq1, hHq2⟩)
  have ha2 := fpRound_abs_le 24 (-126) H (w : Int) (by norm_num) (by omega)
    (by rw [abs_le, zpow_natCast]; exact ⟨hHq1, hHq2⟩)
  change |f32Round H - H| ≤ _ at ha1
  change |f32Round H| ≤ _ at ha2
  generalize f32Round H = a at ha1 ha2 ⊢
  have ea : (w : Int) - 1 - ((24 : ℕ) : Int) = (w : Int) - ((25 : ℕ) : Int) := by
    push_cast; ring
  rw [ea, two_zpow_sub] at ha1
  rw [zpow_natCast] at ha2
  -- conversion of the fractional bits
  have hF1 := fpRound_err 24 (-126) U ((q : Int) - 1) (by norm_num) (by omega)
    (by rw [abs_of_nonneg hUq0, sub_add_cancel, zpow_natCast]; exact hUq1)
  have hF2 := fpRound_abs_le 24 (-126) U (q : Int) (by norm_num) (by omega)
    (by rw [abs_of_nonneg hUq0, zpow_natCast]; exact hUq1)
  have hF3 := fpRound_nonneg 24 (-126) U hUq0
  change |f32Round U - U| ≤ _ at hF1
  change |f32Round U| ≤ _ at hF2
  change 0 ≤ f32Round U at hF3
  generalize f32Round U = F at hF1 hF2 hF3 ⊢
  have eF : (q : Int) - 1 - ((24 : ℕ) : Int) = (q : Int) - ((25 : ℕ) : Int) := by
    push_cast; ring
  rw [eF, two_zpow_sub] at hF1
  rw [zpow_natCast, abs_of_nonneg hF3] at hF2
  have hFU : |F / 2 ^ q - U / 2 ^ q| ≤ 1 / 2 ^ 25 := by
    rw [← sub_div, abs_div, abs_of_pos hPq, div_le_iff₀ hPq]
    calc |F - U| ≤ 2 ^ q / 2 ^ 25 := hF1
      _ = 1 / 2 ^ 25 * 2 ^ q := by ring
  -- division
  have hD0 : 0 ≤ F / 2 ^ q := by positivity
  have hD1 : F / 2 ^ q ≤ 1 := by rw [div_le_one hPq]; exact hF2
  have hd1 := fpRound_err 24 (-126) (F / 2 ^ q) (-1) (by norm_num) (by norm_num)
    (by rw [abs_of_nonneg hD0]; norm_num; exact hD1)
  have hd2 := fpRound_abs_le 24 (-126) (F / 2 ^ q) 0 (by norm_num) (by norm_num)
    (by rw [abs_of_nonneg hD0]; norm_num; exact hD1)
  have hd3 := fpRound_nonneg 24 (-126) (F / 2 ^ q) hD0
  change |f32Round (F / 2 ^ q) - F / 2 ^ q| ≤ _ at hd1
  change |f32Round (F / 2 ^ q)| ≤ _ at hd2
  change 0 ≤ f32Round (F / 2 ^ q) at hd3
  generalize f32Round (F / 2 ^ q) = d at hd1 hd2 hd3 ⊢
  norm_num at hd1 hd2
  rw [abs_of_nonneg hd3] at hd2
  -- sum
  rw [abs_le] at ha2
  have hs := fpRound_err 24 (-126) (a + d) (w : Int) (by norm_num) (by omega)
    (by
      rw [abs_le, zpow_add_one₀ (by norm_num), zpow_natCast]
      constructor <;> linarith [ha2.1, ha2.2])
  change |f32Round (a + d) - (a + d)| ≤ _ at hs
  generalize f32Round (a + d) = s at hs ⊢
  rw [two_zpow_sub] at hs
  have hd1c := abs_le.1 hd1
  rw [abs_le] at ha1 hFU hs ⊢
  rw [hn]
  have e : (2 ^ q * H + U) / 2 ^ q = H + U / 2 ^ q := by field_simp; ring
  rw [e]
  have e24 : (2 : ℚ) ^ w / 2 ^ 24 = 2 * (2 ^ w / 2 ^ 25) := by ring
  rw [e24] at hs
  constructor <;>
    linarith [ha1.1, ha1.2, hFU.1, hFU.2, hd1c.1, hd1c.2, hs.1, hs.2]

theorem qToFloat_minus_100 : MPU9250_DMP.qToFloat (-100) 30 = -128 / 2 ^ 30 := by
  have hi : ((-100 : Int) / ((2 ^ 30 : ℕ) : Int)) = -1 := by norm_num
  have hU : (-100 : Int) % 2 ^ 30 = 1073741724 := by norm_num
  have hfr := qToFloat_frac (-100) 30 (by norm_num)
  have hcast : (((((-100 : Int) % 2 ^ 32).toNat &&& (2 ^ 30 - 1) : Nat)) : ℚ)
      = (((-100 : Int) % 2 ^ 30 : Int) : ℚ) := by
    rw [← hfr, Int.cast_natCast]
  have r1 : f32Round (-1) = -1 := by
    have := f32Round_small_int (-1) (by norm_num) (by norm_num)
    simpa using this
  have r2 : f32Round 1073741724 = 1073741696 := by
    unfold f32Round
    rw [fpRound_eval 24 (-126) _ 29 16777214 (by norm_num) (by norm_num) (by norm_num)
      (by norm_num [abs_lt])]
    norm_num
  have r3 : f32Round (8388607 / 8388608) = 8388607 / 8388608 := by
    unfold f32Round
    rw [fpRound_eval 24 (-126) _ (-1) 16777214 (by norm_num)
      (by rw [abs_of_pos (by norm_num)]; norm_num)
      (by rw [abs_of_pos (by norm_num)]; norm_num)
      (by norm_num [abs_lt])]
    norm_num
  have r4 : f32Round (-(1 / 8388608)) = -(1 / 8388608) := by
    have := fpRound_pow_two 24 (-126) (-23) (by norm_num) (by norm_num) (-1) (Or.inr rfl)
    norm_num at this
    unfold f32Round
    exact this
  rw [qToFloat_unfold (-100) 30 (by norm_num) le_rfl, Int.shiftRight_eq_div_pow, hcast, hi, hU]
  norm_num [r1, r2, r3, r4]

/-- C10, as stated, fails: the code computes in `float`.  `qToFloat(-100, 30)`
is `-128 / 2 ^ 30`, not `-100 / 2 ^ 30`, and decoding the Q30 encoding of
`x = -100 / 2 ^ 30` misses `x` by 28 LSB. -/
theorem MPU9250_DMP.qToFloat_loses_low_bits :
    MPU9250_DMP.qToFloat (-100) 30 = -128 / 2 ^ 30 ∧
    MPU9250_DMP.qToFloat (-100) 30 ≠ ((-100 : Int) : ℚ) / 2 ^ 30 ∧
    1 / 2 ^ 30 < |MPU9250_DMP.calcQuat ⌊(-100 / 2 ^ 30 : ℚ) * 2 ^ 30⌋ - (-100 / 2 ^ 30)| := by
  have hfl : ⌊(-100 / 2 ^ 30 : ℚ) * 2 ^ 30⌋ = -100 := by
    have : (-100 / 2 ^ 30 : ℚ) * 2 ^ 30 = ((-100 : Int) : ℚ) := by norm_num
    rw [this, Int.floor_intCast]
  refine ⟨qToFloat_minus_100, ?_, ?_⟩
  · rw [qToFloat_minus_100]
    norm_num
  · rw [hfl, MPU9250_DMP.calcQuat, qToFloat_minus_100]
    have e : (-128 / 2 ^ 30 - -100 / 2 ^ 30 : ℚ) = -(28 / 2 ^ 30) := by norm_num
    rw [e, abs_neg, abs_of_pos (by norm_num)]
    norm_num

/-- C10, amended: in the binary32 arithmetic of the code, for every signed
32-bit `n` and `1 ≤ q ≤ 30`, `qToFloat n q` is the `float` sum of the `float`
of `n` shifted right by `q` and of the `float` of the low `q` bits of `n`
divided by `2 ^ q`; it differs from `n / 2 ^ q` by at most
`3 * 2 ^ (31 - q) / 2 ^ 25 + 2 ^ (-24)`.  Hence `calcQuat n` is within
`2 ^ (-23)` of `n / 2 ^ 30`, and decoding the Q30 encoding `⌊x * 2 ^ 30⌋` of a
rational `-2 ≤ x < 2` (a signed 32-bit integer) gives back `x` within
`2 ^ (-23) + 2 ^ (-30)`. -/
theorem MPU9250_DMP.qToFloat_binary32 (n : Int) (q : Nat)
    (hlo : -2 ^ 31 ≤ n) (hhi : n < 2 ^ 31) (h1 : 1 ≤ q) (h2 : q ≤ 30) :
    MPU9250_DMP.qToFloat n q =
      f32Round (f32Round ((n >>> q : Int) : ℚ) +
        f32Round (f32Round ((((n % 2 ^ 32).toNat &&& (2 ^ q - 1) : Nat)) : ℚ) / 2 ^ q)) ∧
    |MPU9250_DMP.qToFloat n q - (n : ℚ) / 2 ^ q| ≤ 3 * 2 ^ (31 - q) / 2 ^ 25 + 1 / 2 ^ 24 ∧
    |MPU9250_DMP.calcQuat n - (n : ℚ) / 2 ^ 30| ≤ 1 / 2 ^ 23 ∧
    ∀ x : ℚ, -2 ≤ x → x < 2 →
      -2 ^ 31 ≤ ⌊x * 2 ^ 30⌋ ∧ ⌊x * 2 ^ 30⌋ < 2 ^ 31 ∧
      |MPU9250_DMP.calcQuat ⌊x * 2 ^ 30⌋ - x| ≤ 1 / 2 ^ 23 + 1 / 2 ^ 30 := by
  refine ⟨qToFloat_unfold n q h1 h2, qToFloat_error n q hlo hhi h1 h2,
    calcQuat_error n hlo hhi, ?_⟩
  intro x hx1 hx2
  have hfl : ((⌊x * 2 ^ 30⌋ : Int) : ℚ) ≤ x * 2 ^ 30 := Int.floor_le _
  have hfu : x * 2 ^ 30 < ((⌊x * 2 ^ 30⌋ : Int) : ℚ) + 1 := Int.lt_floor_add_one _
  have b1 : -2 ^ 31 ≤ ⌊x * 2 ^ 30⌋ := by
    apply Int.le_floor.2
    push_cast
    linarith
  have b2 : ⌊x * 2 ^ 30⌋ < 2 ^ 31 := by
    apply Int.floor_lt.2
    push_cast
    linarith
  refine ⟨b1, b2, ?_⟩
  have hc := calcQuat_error ⌊x * 2 ^ 30⌋ b1 b2
  have hd : |((⌊x * 2 ^ 30⌋ : Int) : ℚ) / 2 ^ 30 - x| ≤ 1 / 2 ^ 30 := by
    rw [abs_le]
    constructor
    · rw [le_sub_iff_add_le, le_div_iff₀ (by positivity)]
      have e : (-(1 / 2 ^ 30) + x) * 2 ^ 30 = x * 2 ^ 30 - 1 := by ring
      rw [e]
      linarith
    · rw [sub_le_iff_le_add, div_le_iff₀ (by positivity)]
      have e : (1 / 2 ^ 30 + x) * 2 ^ 30 = x * 2 ^ 30 + 1 := by ring
      rw [e]
      linarith
  calc |MPU9250_DMP.calcQuat ⌊x * 2 ^ 30⌋ - x|
      = |(MPU9250_DMP.calcQuat ⌊x * 2 ^ 30⌋ - ((⌊x * 2 ^ 30⌋ : Int) : ℚ) / 2 ^ 30)
          + (((⌊x * 2 ^ 30⌋ : Int) : ℚ) / 2 ^ 30 - x)| := by ring_nf
    _ ≤ |MPU9250_DMP.calcQuat ⌊x * 2 ^ 30⌋ - ((⌊x * 2 ^ 30⌋ : Int) : ℚ) / 2 ^ 30|
          + |((⌊x * 2 ^ 30⌋ : Int) : ℚ) / 2 ^ 30 - x| := abs_add _ _
    _ ≤ 1 / 2 ^ 23 + 1 / 2 ^ 30 := add_le_add hc hd

/-- Witness of C10 at `n = 759250124`, the Q30 encoding of `cos 45°`, and
`q = 30`. -/
theorem MPU9250_DMP.qToFloat_binary32_witness :
    MPU9250_DMP.qToFloat 759250124 30 =
      f32Round (f32Round (((759250124 : Int) >>> 30 : Int) : ℚ) +
        f32Round (f32Round (((((759250124 : Int) % 2 ^ 32).toNat &&& (2 ^ 30 - 1) : Nat)) : ℚ)
          / 2 ^ 30)) ∧
    |MPU9250_DMP.qToFloat 759250124 30 - ((759250124 : Int) : ℚ) / 2 ^ 30|
      ≤ 3 * 2 ^ (31 - 30) / 2 ^ 25 + 1 / 2 ^ 24 ∧
    |MPU9250_DMP.calcQuat 759250124 - ((759250124 : Int) : ℚ) / 2 ^ 30| ≤ 1 / 2 ^ 23 ∧
    ∀ x : ℚ, -2 ≤ x → x < 2 →
      -2 ^ 31 ≤ ⌊x * 2 ^ 30⌋ ∧ ⌊x * 2 ^ 30⌋ < 2 ^ 31 ∧
      |MPU9250_DMP.calcQuat ⌊x * 2 ^ 30⌋ - x| ≤ 1 / 2 ^ 23 + 1 / 2 ^ 30 :=
  MPU9250_DMP.qToFloat_binary32 759250124 30 (by decide) (by decide) (by decide) (by decide)

/-! ### Compass heading -/

theorem PI_double_nearest : |((PI_double : ℚ) : ℝ) - Real.pi| < 1 / 2 ^ 52 := by
  have h1 := Real.pi_gt_d20
  have h2 := Real.pi_lt_d20
  rw [abs_lt]
  unfold PI_double
  push_cast
  constructor
  · norm_num at h1 h2 ⊢
    linarith
  · norm_num at h1 h2 ⊢
    linarith

theorem f32Round_PI : f32Round PI_double = 13176795 / 4194304 := by
  unfold f32Round PI_double
  rw [fpRound_eval 24 (-126) _ 1 13176795 (by norm_num)
    (by rw [abs_of_pos (by norm_num)]; norm_num)
    (by rw [abs_of_pos (by norm_num)]; norm_num)
    (by rw [abs_lt]; constructor <;> norm_num)]
  norm_num

theorem f64Round_two_PI : f64Round (2 * PI_double) = 884279719003555 / 140737488355328 := by
  unfold f64Round PI_double
  rw [fpRound_eval 53 (-1022) _ 2 7074237752028440 (by norm_num)
    (by rw [abs_of_pos (by norm_num)]; norm_num)
    (by rw [abs_of_pos (by norm_num)]; norm_num)
    (by rw [abs_lt]; constructor <;> norm_num)]
  norm_num

theorem f64Round_wrap :
    f64Round (13176795 / 4194304 - 884279719003555 / 140737488355328)
      = -(442139847198115 / 140737488355328) := by
  have e : (13176795 / 4194304 - 884279719003555 / 140737488355328 : ℚ)
      = -(442139847198115 / 140737488355328) := by norm_num
  rw [e]
  unfold f64Round
  rw [fpRound_eval 53 (-1022) _ 1 (-7074237555169840) (by norm_num)
    (by rw [abs_neg, abs_of_pos (by norm_num)]; norm_num)
    (by rw [abs_neg, abs_of_pos (by norm_num)]; norm_num)
    (by rw [abs_lt]; constructor <;> norm_num)]
  norm_num

theorem f32Round_wrap :
    f32Round (-(442139847198115 / 140737488355328)) = -(6588397 / 2097152) := by
  unfold f32Round
  rw [fpRound_eval 24 (-126) _ 1 (-13176794) (by norm_num)
    (by rw [abs_neg, abs_of_pos (by norm_num)]; norm_num)
    (by rw [abs_neg, abs_of_pos (by norm_num)]; norm_num)
    (by rw [abs_lt]; constructor <;> norm_num)]
  norm_num

theorem f64Round_deg : f64Round (180 / PI_double) = 1007958012753983 / 17592186044416 := by
  unfold f64Round PI_double
  rw [fpRound_eval 53 (-1022) _ 5 8063664102031864 (by norm_num)
    (by rw [abs_of_pos (by norm_num)]; norm_num)
    (by rw [abs_of_pos (by norm_num)]; norm_num)
    (by rw [abs_lt]; constructor <;> norm_num)]
  norm_num

theorem f64Round_scaled :
    f64Round (-(6588397 / 2097152) * (1007958012753983 / 17592186044416))
      = -(6333186671594909 / 35184372088832) := by
  have e : (-(6588397 / 2097152) * (1007958012753983 / 17592186044416) : ℚ)
      = -(6640827547354303335251 / 36893488147419103232) := by norm_num
  rw [e]
  unfold f64Round
  rw [fpRound_eval 53 (-1022) _ 7 (-6333186671594909) (by norm_num)
    (by rw [abs_neg, abs_of_pos (by norm_num)]; norm_num)
    (by rw [abs_neg, abs_of_pos (by norm_num)]; norm_num)
    (by rw [abs_lt]; constructor <;> norm_num)]
  norm_num

theorem f32Round_scaled :
    f32Round (-(6333186671594909 / 35184372088832)) = -(11796479 / 65536) := by
  unfold f32Round
  rw [fpRound_eval 24 (-126) _ 7 (-11796479) (by norm_num)
    (by rw [abs_neg, abs_of_pos (by norm_num)]; norm_num)
    (by rw [abs_neg, abs_of_pos (by norm_num)]; norm_num)
    (by rw [abs_lt]; constructor <;> norm_num)]
  norm_num

theorem f32Round_zero : f32Round 0 = 0 := fpRound_zero 24 (-126)

theorem f64Round_zero : f64Round 0 = 0 := fpRound_zero 53 (-1022)

theorem heading_of_zero (k : ℚ) :
    f32Round (f64Round ((if (0 : ℚ) > PI_double then
        f32Round (f64Round (0 - f64Round (2 * PI_double)))
      else if (0 : ℚ) < -PI_double then f32Round (f64Round (0 + f64Round (2 * PI_double)))
      else if (0 : ℚ) < 0 then f32Round (f64Round (0 + f64Round (2 * PI_double)))
      else 0) * k)) = 0 := by
  have h1 : ¬ ((0 : ℚ) > PI_double) := by unfold PI_double; norm_num
  have h2 : ¬ ((0 : ℚ) < -PI_double) := by unfold PI_double; norm_num
  rw [if_neg h1, if_neg h2, if_neg (lt_irrefl _), zero_mul, f64Round_zero, f32Round_zero]

theorem heading_west (libmAtan2 : ℚ → ℚ → ℚ) (s : FusionSample) (hy : s.my = 0)
    (hx : s.mx < 0) :
    (MPU9250_DMP.computeCompassHeading libmAtan2 s).1 = -(11796479 / 65536) := by
  have hgt : (13176795 / 4194304 : ℚ) > PI_double := by unfold PI_double; norm_num
  simp only [MPU9250_DMP.computeCompassHeading, hy, hx, if_true, f32Round_PI]
  rw [if_pos hgt, f64Round_two_PI, f64Round_wrap, f32Round_wrap, f64Round_deg,
    f64Round_scaled, f32Round_scaled]

/-- C7, as stated, fails: at `(mx, my) = (1, 0)` the code takes the `my == 0`
branch and returns 0 degrees, not 90. -/
theorem MPU9250_DMP.computeCompassHeading_east_is_zero :
    (MPU9250_DMP.computeCompassHeading atan2OnAxis (magSample 1 0)).1 = 0 ∧
    (MPU9250_DMP.computeCompassHeading atan2OnAxis (magSample 1 0)).1 ≠ 90 := by
  have e : (MPU9250_DMP.computeCompassHeading atan2OnAxis (magSample 1 0)).1 = 0 := by
    have hy : (magSample 1 0).my = 0 := rfl
    have hx : ¬ (magSample 1 0).mx < 0 := by decide
    simp only [MPU9250_DMP.computeCompassHeading, hy, hx, if_true, if_false, f32Round_zero]
    exact heading_of_zero _
  rw [e]
  exact ⟨rfl, by norm_num⟩

/-- C7, amended: whatever the other fields of the sample state hold, and for
every libm `atan2` with `atan2(0, 1) = 0`, `computeCompassHeading` returns
0 degrees at `(mx, my) = (0, 1)` and 0 degrees at `(mx, my) = (1, 0)`. -/
theorem MPU9250_DMP.computeCompassHeading_cardinals (libmAtan2 : ℚ → ℚ → ℚ)
    (s : FusionSample) (h01 : libmAtan2 0 1 = 0) :
    (MPU9250_DMP.computeCompassHeading libmAtan2 { s with mx := 0, my := 1 }).1 = 0 ∧
    (MPU9250_DMP.computeCompassHeading libmAtan2 { s with mx := 1, my := 0 }).1 = 0 := by
  constructor
  · simp only [MPU9250_DMP.computeCompassHeading, one_ne_zero, if_false, Int.cast_zero,
      Int.cast_one, h01, f32Round_zero]
    exact heading_of_zero _
  · have hx : ¬ ((1 : Int) < 0) := by decide
    simp only [MPU9250_DMP.computeCompassHeading, hx, if_true, if_false, f32Round_zero]
    exact heading_of_zero _

/-- Witness of the amended C7, with `atan2OnAxis` for libm's `atan2`. -/
theorem MPU9250_DMP.computeCompassHeading_cardinals_witness :
    (MPU9250_DMP.computeCompassHeading atan2OnAxis
      { zeroSample with mx := 0, my := 1 }).1 = 0 ∧
    (MPU9250_DMP.computeCompassHeading atan2OnAxis
      { zeroSample with mx := 1, my := 0 }).1 = 0 :=
  MPU9250_DMP.computeCompassHeading_cardinals atan2OnAxis zeroSample rfl

/-- C8 at the failing input `(mx, my) = (-1, 0)`: `heading` is set to the
`float` of `PI`, which exceeds the `double` `PI`, so `heading > PI` holds,
`2 * PI` is subtracted and the result is not wrapped again; the code returns
`-11796479 / 65536`, about -179.99998 degrees, outside `[0, 360)`, whatever
libm's `atan2` is. -/
theorem MPU9250_DMP.computeCompassHeading_west_negative (libmAtan2 : ℚ → ℚ → ℚ) :
    (MPU9250_DMP.computeCompassHeading libmAtan2 (magSample (-1) 0)).1
      = -(11796479 / 65536) ∧
    (MPU9250_DMP.computeCompassHeading libmAtan2 (magSample (-1) 0)).1 < 0 ∧
    ¬ (0 ≤ (MPU9250_DMP.computeCompassHeading libmAtan2 (magSample (-1) 0)).1 ∧
      (MPU9250_DMP.computeCompassHeading libmAtan2 (magSample (-1) 0)).1 < 360) := by
  have e := heading_west libmAtan2 (magSample (-1) 0) rfl (by decide)
  rw [e]
  norm_num

/-! ### Euler angles, convention A -/

theorem atan2_of_neg {y : ℝ} (x : ℝ) (hy : y < 0) :
    atan2 y x = Real.arctan (x / (-y)) - Real.pi / 2 := by
  have hz : (⟨x, y⟩ : ℂ) ≠ 0 := by
    intro h
    have := congrArg Complex.im h
    simp at this
    linarith
  have habs : 0 < Complex.abs ⟨x, y⟩ := Complex.abs.pos hz
  have hlt : atan2 y x < 0 := Complex.arg_neg_iff.2 hy
  have hgt : -Real.pi < atan2 y x := Complex.neg_pi_lt_arg _
  have hs : Real.sin (atan2 y x) = y / Complex.abs ⟨x, y⟩ := Complex.sin_arg _
  have hc : Real.cos (atan2 y x) = x / Complex.abs ⟨x, y⟩ := Complex.cos_arg hz
  have ht : Real.tan (atan2 y x + Real.pi / 2) = x / (-y) := by
    rw [Real.tan_eq_sin_div_cos, Real.sin_add_pi_div_two, Real.cos_add_pi_div_two, hs, hc]
    field_simp
  have h := Real.arctan_tan (show -(Real.pi / 2) < atan2 y x + Real.pi / 2 by linarith)
    (show atan2 y x + Real.pi / 2 < Real.pi / 2 by linarith)
  rw [ht] at h
  linarith

theorem abs_arctan_le_abs (u : ℝ) : |Real.arctan u| ≤ |u| := by
  have pos : ∀ v : ℝ, 0 < v → Real.arctan v ≤ v := by
    intro v hv
    have h0 : 0 < Real.arctan v := by
      rw [← Real.arctan_zero]
      exact Real.arctan_strictMono hv
    have h := Real.lt_tan h0 (Real.arctan_lt_pi_div_two v)
    rw [Real.tan_arctan] at h
    exact h.le
  rcases lt_trichotomy u 0 with h | h | h
  · have h1 := pos (-u) (by linarith)
    rw [Real.arctan_neg] at h1
    have h2 : Real.arctan u < 0 := by
      rw [← Real.arctan_zero]
      exact Real.arctan_strictMono h
    rw [abs_of_neg h, abs_of_neg h2]
    linarith
  · subst h
    simp
  · have h2 : 0 < Real.arctan u := by
      rw [← Real.arctan_zero]
      exact Real.arctan_strictMono h
    rw [abs_of_pos h, abs_of_pos h2]
    exact pos u h

theorem computeEulerAngles_yaw (s : FusionSample) :
    (MPU9250_DMP.computeEulerAngles true s).yaw =
      if atan2 (2 * ((MPU9250_DMP.qToFloatExact s.qx 30 : ℝ) * (MPU9250_DMP.qToFloatExact s.qy 30 : ℝ)
            - (MPU9250_DMP.qToFloatExact s.qw 30 : ℝ) * (MPU9250_DMP.qToFloatExact s.qz 30 : ℝ)))
          (-2 * ((MPU9250_DMP.qToFloatExact s.qy 30 : ℝ) * (MPU9250_DMP.qToFloatExact s.qy 30 : ℝ)
            + (MPU9250_DMP.qToFloatExact s.qz 30 : ℝ) * (MPU9250_DMP.qToFloatExact s.qz 30 : ℝ)) + 1)
          * (180 / PI) < 0
      then 360 + atan2 (2 * ((MPU9250_DMP.qToFloatExact s.qx 30 : ℝ) * (MPU9250_DMP.qToFloatExact s.qy 30 : ℝ)
            - (MPU9250_DMP.qToFloatExact s.qw 30 : ℝ) * (MPU9250_DMP.qToFloatExact s.qz 30 : ℝ)))
          (-2 * ((MPU9250_DMP.qToFloatExact s.qy 30 : ℝ) * (MPU9250_DMP.qToFloatExact s.qy 30 : ℝ)
            + (MPU9250_DMP.qToFloatExact s.qz 30 : ℝ) * (MPU9250_DMP.qToFloatExact s.qz 30 : ℝ)) + 1)
          * (180 / PI)
      else atan2 (2 * ((MPU9250_DMP.qToFloatExact s.qx 30 : ℝ) * (MPU9250_DMP.qToFloatExact s.qy 30 : ℝ)
            - (MPU9250_DMP.qToFloatExact s.qw 30 : ℝ) * (MPU9250_DMP.qToFloatExact s.qz 30 : ℝ)))
          (-2 * ((MPU9250_DMP.qToFloatExact s.qy 30 : ℝ) * (MPU9250_DMP.qToFloatExact s.qy 30 : ℝ)
            + (MPU9250_DMP.qToFloatExact s.qz 30 : ℝ) * (MPU9250_DMP.qToFloatExact s.qz 30 : ℝ)) + 1)
          * (180 / PI) := rfl

theorem computeEulerAngles_yaw_nonneg (s : FusionSample) :
    0 ≤ (MPU9250_DMP.computeEulerAngles true s).yaw := by
  have hpi := Real.pi_pos
  have hk : 0 < 180 / Real.pi := by positivity
  have h180 : Real.pi * (180 / Real.pi) = 180 := by field_simp
  rw [computeEulerAngles_yaw]
  split_ifs with h
  · have hb := neg_pi_lt_atan2
      (2 * ((MPU9250_DMP.qToFloatExact s.qx 30 : ℝ) * (MPU9250_DMP.qToFloatExact s.qy 30 : ℝ)
            - (MPU9250_DMP.qToFloatExact s.qw 30 : ℝ) * (MPU9250_DMP.qToFloatExact s.qz 30 : ℝ)))
      (-2 * ((MPU9250_DMP.qToFloatExact s.qy 30 : ℝ) * (MPU9250_DMP.qToFloatExact s.qy 30 : ℝ)
            + (MPU9250_DMP.qToFloatExact s.qz 30 : ℝ) * (MPU9250_DMP.qToFloatExact s.qz 30 : ℝ)) + 1)
    have hm := mul_lt_mul_of_pos_right hb hk
    rw [neg_mul, h180] at hm
    simp only [PI]
    linarith
  · exact not_lt.1 h

theorem computeEulerAngles_yaw_zrot (s : FusionSample) (n : Int) (hn : n ≠ 0) :
    (MPU9250_DMP.computeEulerAngles true { s with qw := n, qx := 0, qy := 0, qz := n }).yaw =
      270 + Real.arctan ((2 ^ 59 - (n : ℝ) ^ 2) / (n : ℝ) ^ 2) * (180 / Real.pi) := by
  have hpi := Real.pi_pos
  have hk : 0 < 180 / Real.pi := by positivity
  have q0 : MPU9250_DMP.qToFloatExact 0 30 = 0 := by
    rw [qToFloat_exact 0 30 (by norm_num) le_rfl]
    simp
  have qn : MPU9250_DMP.qToFloatExact n 30 = (n : ℚ) / 2 ^ 30 :=
    qToFloat_exact n 30 (by norm_num) le_rfl
  have hnr : (n : ℝ) ≠ 0 := by exact_mod_cast hn
  have hsq : 0 < (n : ℝ) ^ 2 := by positivity
  rw [computeEulerAngles_yaw]
  simp only [q0, qn, PI]
  push_cast
  have ht1 : 2 * ((0 : ℝ) * 0 - (n : ℝ) / 2 ^ 30 * ((n : ℝ) / 2 ^ 30)) < 0 := by
    have : 0 < (n : ℝ) / 2 ^ 30 * ((n : ℝ) / 2 ^ 30) :=
      mul_self_pos.2 (div_ne_zero hnr (by positivity))
    linarith
  rw [atan2_of_neg _ ht1]
  have hu : (-2 * ((0 : ℝ) * 0 + (n : ℝ) / 2 ^ 30 * ((n : ℝ) / 2 ^ 30)) + 1) /
      -(2 * ((0 : ℝ) * 0 - (n : ℝ) / 2 ^ 30 * ((n : ℝ) / 2 ^ 30)))
      = (2 ^ 59 - (n : ℝ) ^ 2) / (n : ℝ) ^ 2 := by
    field_simp
    ring
  rw [hu]
  have hlt : (Real.arctan ((2 ^ 59 - (n : ℝ) ^ 2) / (n : ℝ) ^ 2) - Real.pi / 2)
      * (180 / Real.pi) < 0 := by
    apply mul_neg_of_neg_of_pos _ hk
    linarith [Real.arctan_lt_pi_div_two ((2 ^ 59 - (n : ℝ) ^ 2) / (n : ℝ) ^ 2)]
  rw [if_pos hlt]
  field_simp
  ring

theorem computeEulerAngles_yaw_near_270 (s : FusionSample) (n : Int)
    (hn : n = 759250124 ∨ n = 759250125) :
    |(MPU9250_DMP.computeEulerAngles true { s with qw := n, qx := 0, qy := 0, qz := n }).yaw
      - 270| < 1 / 10 ^ 6 := by
  have hpi := Real.pi_pos
  have h3 := Real.pi_gt_three
  have hk : 0 < 180 / Real.pi := by positivity
  have hk60 : 180 / Real.pi < 60 := by
    rw [div_lt_iff₀ hpi]
    linarith
  have hn0 : n ≠ 0 := by rcases hn with h | h <;> subst h <;> decide
  have hu : |(2 ^ 59 - (n : ℝ) ^ 2) / (n : ℝ) ^ 2| ≤ 1 / 10 ^ 8 := by
    rcases hn with h | h <;> subst h <;> norm_num [abs_le]
  rw [computeEulerAngles_yaw_zrot s n hn0, add_sub_cancel_left, abs_mul, abs_of_pos hk]
  have ha := abs_arctan_le_abs ((2 ^ 59 - (n : ℝ) ^ 2) / (n : ℝ) ^ 2)
  have hnn := abs_nonneg (Real.arctan ((2 ^ 59 - (n : ℝ) ^ 2) / (n : ℝ) ^ 2))
  calc |Real.arctan ((2 ^ 59 - (n : ℝ) ^ 2) / (n : ℝ) ^ 2)| * (180 / Real.pi)
      ≤ (1 / 10 ^ 8) * 60 := mul_le_mul (ha.trans hu) hk60.le hk.le (by norm_num)
    _ < 1 / 10 ^ 6 := by norm_num

/-- C9, as stated, fails: for the Q30 encoding of the 90-degree yaw quaternion
`(cos 45°, 0, 0, sin 45°)`, degree-mode `computeEulerAngles` sets yaw within
`10 ^ (-6)` of 270 degrees, not near 90. -/
theorem MPU9250_DMP.computeEulerAngles_yaw90_gives_270 :
    |(MPU9250_DMP.computeEulerAngles true (quatSample 759250124 0 0 759250124)).yaw - 270|
      < 1 / 10 ^ 6 ∧
    ¬ |(MPU9250_DMP.computeEulerAngles true (quatSample 759250124 0 0 759250124)).yaw - 90|
      < 179 := by
  have h := computeEulerAngles_yaw_near_270 zeroSample 759250124 (Or.inl rfl)
  have e : ({ zeroSample with qw := 759250124, qx := 0, qy := 0, qz := 759250124 }
      : FusionSample) = quatSample 759250124 0 0 759250124 := rfl
  rw [e] at h
  refine ⟨h, ?_⟩
  rw [abs_lt] at h ⊢
  intro hc
  norm_num at h
  linarith [h.1, hc.2]

/-- C9, amended: in degree mode `computeEulerAngles` sets pitch, roll and yaw
to 0 for the identity quaternion (`qw = 2 ^ 30`, `qx = qy = qz = 0`); for the
Q30 encoding of the 90-degree yaw quaternion `(cos 45°, 0, 0, sin 45°)`, with
`cos 45° · 2 ^ 30` rounded down (759250124) or to nearest (759250125), it sets
yaw within `10 ^ (-6)` of 270 degrees; and yaw is never negative. -/
theorem MPU9250_DMP.computeEulerAngles_convention_A (s : FusionSample) :
    ((MPU9250_DMP.computeEulerAngles true
        { s with qw := 2 ^ 30, qx := 0, qy := 0, qz := 0 }).pitch = 0 ∧
      (MPU9250_DMP.computeEulerAngles true
        { s with qw := 2 ^ 30, qx := 0, qy := 0, qz := 0 }).roll = 0 ∧
      (MPU9250_DMP.computeEulerAngles true
        { s with qw := 2 ^ 30, qx := 0, qy := 0, qz := 0 }).yaw = 0) ∧
    |(MPU9250_DMP.computeEulerAngles true
        { s with qw := 759250124, qx := 0, qy := 0, qz := 759250124 }).yaw - 270|
      < 1 / 10 ^ 6 ∧
    |(MPU9250_DMP.computeEulerAngles true
        { s with qw := 759250125, qx := 0, qy := 0, qz := 759250125 }).yaw - 270|
      < 1 / 10 ^ 6 ∧
    0 ≤ (MPU9250_DMP.computeEulerAngles true s).yaw := by
  refine ⟨?_, computeEulerAngles_yaw_near_270 s 759250124 (Or.inl rfl),
    computeEulerAngles_yaw_near_270 s 759250125 (Or.inr rfl),
    computeEulerAngles_yaw_nonneg s⟩
  have q0 : MPU9250_DMP.qToFloatExact 0 30 = 0 := by
    rw [qToFloat_exact 0 30 (by norm_num) le_rfl]
    simp
  have q1 : MPU9250_DMP.qToFloatExact (2 ^ 30) 30 = 1 := by
    rw [qToFloat_exact (2 ^ 30) 30 (by norm_num) le_rfl]
    norm_num
  have a1 : atan2 0 1 = 0 := atan2_zero_pos one_pos
  have n1 : ¬ ((1 : ℝ) < 0) := by norm_num
  have n2 : ¬ ((0 : ℝ) < -1) := by norm_num
  simp [MPU9250_DMP.computeEulerAngles, q0, q1, a1, n1, n2]

/-! ### Tap configuration -/

theorem constrain_thresh (t : Nat) (ht : t ≠ 0) :
    constrain t 1 1600 = min t 1600 ∧ 1 ≤ min t 1600 ∧ min t 1600 ≤ 1600 := by
  unfold constrain
  have h1 : ¬ t < 1 := by omega
  rw [if_neg h1]
  split_ifs <;> omega

/-- C11: when every driver call succeeds, `dmpSetTap` returns `INV_SUCCESS` and
its driver calls are, in order: a tap-threshold command for each axis whose
threshold is nonzero and for no other, carrying `min threshold 1600`, which
lies in `[1, 1600]`; the tap-axes command with the OR of `TAP_X`, `TAP_Y`,
`TAP_Z` over the axes with nonzero threshold (0 when there is none); the tap
count, tap time and multi-tap time commands; and, last of all, the registration
of the tap callback. -/
theorem MPU9250_DMP.dmpSetTap_calls (K : DriverConsts) (drv : Driver)
    (addr xThresh yThresh zThresh taps tapTime tapMulti : Nat)
    (_hx : xThresh < 65536) (_hy : yThresh < 65536) (_hz : zThresh < 65536)
    (hX : K.TAP_X < 256) (hY : K.TAP_Y < 256) (hZ : K.TAP_Z < 256)
    (hok : ∀ (t : Trace) (c : DriverCall), drv t c = K.INV_SUCCESS) :
    (MPU9250_DMP.dmpSetTap K drv addr xThresh yThresh zThresh taps tapTime tapMulti []).1
      = K.INV_SUCCESS ∧
    (MPU9250_DMP.dmpSetTap K drv addr xThresh yThresh zThresh taps tapTime tapMulti []).2.map
        Prod.fst =
      (if xThresh ≠ 0 then
          [DriverCall.dmp_set_tap_thresh addr ((1 <<< K.X_AXIS) % 256) (min xThresh 1600)]
        else []) ++
      (if yThresh ≠ 0 then
          [DriverCall.dmp_set_tap_thresh addr ((1 <<< K.Y_AXIS) % 256) (min yThresh 1600)]
        else []) ++
      (if zThresh ≠ 0 then
          [DriverCall.dmp_set_tap_thresh addr ((1 <<< K.Z_AXIS) % 256) (min zThresh 1600)]
        else []) ++
      [DriverCall.dmp_set_tap_axes addr
          ((if xThresh ≠ 0 then K.TAP_X else 0) ||| (if yThresh ≠ 0 then K.TAP_Y else 0)
            ||| (if zThresh ≠ 0 then K.TAP_Z else 0)),
        DriverCall.dmp_set_tap_count addr taps,
        DriverCall.dmp_set_tap_time addr tapTime,
        DriverCall.dmp_set_tap_time_multi addr tapMulti,
        DriverCall.dmp_register_tap_cb] ∧
    (xThresh ≠ 0 → 1 ≤ min xThresh 1600 ∧ min xThresh 1600 ≤ 1600) ∧
    (yThresh ≠ 0 → 1 ≤ min yThresh 1600 ∧ min yThresh 1600 ≤ 1600) ∧
    (zThresh ≠ 0 → 1 ≤ min zThresh 1600 ∧ min zThresh 1600 ≤ 1600) := by
  refine ⟨?_, ?_, fun h => (constrain_thresh _ h).2, fun h => (constrain_thresh _ h).2,
    fun h => (constrain_thresh _ h).2⟩
  · by_cases h1 : xThresh > 0 <;> by_cases h2 : yThresh > 0 <;> by_cases h3 : zThresh > 0 <;>
      simp [MPU9250_DMP.dmpSetTap, issue, hok, h1, h2, h3]
  · have e1 := fun h => (constrain_thresh xThresh h).1
    have e2 := fun h => (constrain_thresh yThresh h).1
    have e3 := fun h => (constrain_thresh zThresh h).1
    have h256 : (256 : Nat) = 2 ^ 8 := by norm_num
    have mX : K.TAP_X % 256 = K.TAP_X := Nat.mod_eq_of_lt hX
    have mY : K.TAP_Y % 256 = K.TAP_Y := Nat.mod_eq_of_lt hY
    have mZ : K.TAP_Z % 256 = K.TAP_Z := Nat.mod_eq_of_lt hZ
    have mXY : (K.TAP_X ||| K.TAP_Y) % 256 = K.TAP_X ||| K.TAP_Y := by
      apply Nat.mod_eq_of_lt
      rw [h256] at hX hY ⊢
      exact Nat.or_lt_two_pow hX hY
    have mXZ : (K.TAP_X ||| K.TAP_Z) % 256 = K.TAP_X ||| K.TAP_Z := by
      apply Nat.mod_eq_of_lt
      rw [h256] at hX hZ ⊢
      exact Nat.or_lt_two_pow hX hZ
    have mYZ : (K.TAP_Y ||| K.TAP_Z) % 256 = K.TAP_Y ||| K.TAP_Z := by
      apply Nat.mod_eq_of_lt
      rw [h256] at hY hZ ⊢
      exact Nat.or_lt_two_pow hY hZ
    have mXYZ : (K.TAP_X ||| K.TAP_Y ||| K.TAP_Z) % 256 = K.TAP_X ||| K.TAP_Y ||| K.TAP_Z := by
      apply Nat.mod_eq_of_lt
      rw [h256] at hX hY hZ ⊢
      exact Nat.or_lt_two_pow (Nat.or_lt_two_pow hX hY) hZ
    by_cases h1 : xThresh = 0 <;> by_cases h2 : yThresh = 0 <;> by_cases h3 : zThresh = 0
    all_goals
      simp [MPU9250_DMP.dmpSetTap, issue, hok, h1, h2, h3, Nat.pos_iff_ne_zero, e1, e2, e3,
        mX, mY, mZ, mXY, mXZ, mYZ, mXYZ, hX, hY, hZ]

/-- Witness of C11: thresholds `(0, 2000, 5)`, so the y threshold is clamped
and no x command is issued. -/
theorem MPU9250_DMP.dmpSetTap_calls_witness :
    (MPU9250_DMP.dmpSetTap sampleConsts okDriver 104 0 2000 5 1 100 500 []).1
      = sampleConsts.INV_SUCCESS ∧
    (MPU9250_DMP.dmpSetTap sampleConsts okDriver 104 0 2000 5 1 100 500 []).2.map Prod.fst =
      (if (0 : Nat) ≠ 0 then
          [DriverCall.dmp_set_tap_thresh 104 ((1 <<< sampleConsts.X_AXIS) % 256) (min 0 1600)]
        else []) ++
      (if (2000 : Nat) ≠ 0 then
          [DriverCall.dmp_set_tap_thresh 104 ((1 <<< sampleConsts.Y_AXIS) % 256) (min 2000 1600)]
        else []) ++
      (if (5 : Nat) ≠ 0 then
          [DriverCall.dmp_set_tap_thresh 104 ((1 <<< sampleConsts.Z_AXIS) % 256) (min 5 1600)]
        else []) ++
      [DriverCall.dmp_set_tap_axes 104
          ((if (0 : Nat) ≠ 0 then sampleConsts.TAP_X else 0)
            ||| (if (2000 : Nat) ≠ 0 then sampleConsts.TAP_Y else 0)
            ||| (if (5 : Nat) ≠ 0 then sampleConsts.TAP_Z else 0)),
        DriverCall.dmp_set_tap_count 104 1,
        DriverCall.dmp_set_tap_time 104 100,
        DriverCall.dmp_set_tap_time_multi 104 500,
        DriverCall.dmp_register_tap_cb] ∧
    ((0 : Nat) ≠ 0 → 1 ≤ min (0 : Nat) 1600 ∧ min (0 : Nat) 1600 ≤ 1600) ∧
    ((2000 : Nat) ≠ 0 → 1 ≤ min (2000 : Nat) 1600 ∧ min (2000 : Nat) 1600 ≤ 1600) ∧
    ((5 : Nat) ≠ 0 → 1 ≤ min (5 : Nat) 1600 ∧ min (5 : Nat) 1600 ≤ 1600) :=
  MPU9250_DMP.dmpSetTap_calls sampleConsts okDriver 104 0 2000 5 1 100 500
    (by decide) (by decide) (by decide) (by decide) (by decide) (by decide) (fun _ _ => rfl)

/-! ### The combined update -/

